import Mathlib

/-!
Verification of the firmware-upgrade protocol engine of the
openinverter CAN tool (`openinverter_can_tool/can_upgrade.py`).

The Python module is shallowly embedded: bytes are `Nat` values, byte
strings are `List Nat`, machine words are `Nat` reduced modulo `2 ^ 32`
where the Python code wraps, the fallible firmware loader returns
`Except`, and the mutable state-machine object becomes a record `SM`
transformed by a pure step function `SM.process`.
-/

/- ### CRC engine: `stm_crc` -/

/-- One shift-and-conditional-XOR step of the STM32 CRC (the body of the
`for _ in range(32)` loop of `stm_crc`), with 32-bit wraparound. -/
def crcOne (crc : Nat) : Nat :=
  if crc &&& 0x80000000 ≠ 0 then ((crc <<< 1) ^^^ 0x04C11DB7) % 4294967296
  else (crc <<< 1) % 4294967296

/-- The inner loop of `stm_crc`, generalised to `n` steps. -/
def crcSteps : Nat → Nat → Nat
  | 0, c => c
  | n + 1, c => crcSteps n (crcOne c)

/-- Model of `array.array("I", data)`: interpret the byte buffer as little-endian
32-bit unsigned words (the claims only concern buffers whose length is a
multiple of 4, where no trailing bytes remain). -/
def toWords : List Nat → List Nat
  | b0 :: b1 :: b2 :: b3 :: rest =>
      (b0 + b1 * 256 + b2 * 65536 + b3 * 16777216) :: toWords rest
  | _ => []

/-- Function `stm_crc` from `can_upgrade.py`: start from `0xffffffff`; for each word
XOR it into the running CRC and run the 32-step inner loop. -/
def stm_crc (data : List Nat) : Nat :=
  (toWords data).foldl (fun crc word => crcSteps 32 (crc ^^^ word)) 0xffffffff

/-- Little-endian word value of a 4-byte chunk, written from the spec's
words ("interpret `data` as a sequence of 32-bit little-endian unsigned
words"): the last byte is the most significant. -/
def leWord (chunk : List Nat) : Nat :=
  chunk.foldr (fun b acc => acc * 256 + b) 0

/-- Split a byte buffer into 4-byte chunks (spec-side view of the buffer). -/
def chunk4 : List Nat → List (List Nat)
  | b0 :: b1 :: b2 :: b3 :: rest => [b0, b1, b2, b3] :: chunk4 rest
  | _ => []

/-- Spec-side `crc32_variant` as the spec describes it: word-wise CRC-32/MPEG-2 —
initial value `0xFFFFFFFF`, polynomial `0x04C11DB7`, for each little-endian
word XOR it in and run 32 shift-and-conditional-XOR steps, no final XOR. -/
def crc32_variant (data : List Nat) : Nat :=
  (chunk4 data).foldl (fun crc chunk => crcOne^[32] (crc ^^^ leWord chunk)) 0xffffffff

/-- Abbreviation for `crcSteps 32`, the transformation one zero word applies
to the running CRC. -/
def crcZero (c : Nat) : Nat := crcSteps 32 c

/- ### Firmware pages and the loader -/

/-- A firmware page, from class `Page`: the (padded) byte data and its
precomputed CRC. -/
structure Page where
  data : List Nat
  crc : Nat
  deriving DecidableEq

/-- Constructor `Page.__init__`: pad the data on the right with zero bytes
up to `PAGE_SIZE` (1024) unless the computed padding is exactly
`PAGE_SIZE`, then compute the page CRC with `stm_crc`. -/
def Page.ofData (data : List Nat) : Page :=
  let padding := 1024 - data.length % 1024
  let d := if padding ≠ 1024 then data ++ List.replicate padding 0 else data
  ⟨d, stm_crc d⟩

/-- The chunking performed by the read loop of `CanUpgrader.__init__`:
split the firmware bytes into 1024-byte chunks and build a `Page` from
each (without the page-count bound). -/
def chunkPages : List Nat → List Page
  | [] => []
  | b :: rest => Page.ofData ((b :: rest).take 1024) :: chunkPages ((b :: rest).drop 1024)
  termination_by bs => bs.length
  decreasing_by simp [List.length_drop]; omega

/-- The read loop of `CanUpgrader.__init__` including the `MAX_PAGES`
check: build pages chunk by chunk, raising (modelled as `Except.error`)
as soon as the accumulated page count would exceed 255. `count` is the
number of pages accumulated so far (0 at the top-level call). -/
def loadFirmware : List Nat → Nat → Except Unit (List Page)
  | [], _ => Except.ok []
  | b :: rest, count =>
      if count + 1 > 255 then Except.error ()
      else
        match loadFirmware ((b :: rest).drop 1024) (count + 1) with
        | Except.ok ps => Except.ok (Page.ofData ((b :: rest).take 1024) :: ps)
        | Except.error e => Except.error e
  termination_by bs _ => bs.length
  decreasing_by simp [List.length_drop]; omega

/- ### The upgrade state machine -/

/-- Failure codes, from enum `Failure`. -/
inductive Failure
  | protocolError
  | upgradeInProgress
  | pageCrcError
  deriving DecidableEq

/-- Externally visible states, from enum `State`. -/
inductive State
  | start
  | header
  | upload
  | checkCrc
  | waitForDone
  | failure
  | complete
  deriving DecidableEq

/-- A status snapshot, from namedtuple `StateUpdate`; Python floats are
modelled as rationals. -/
structure StateUpdate where
  state : State
  serialno : Option (List Nat)
  failure : Option Failure
  progress : ℚ
  deriving DecidableEq

/-- The current internal state object with its per-state data: `UploadState`
holds the page being sent and the byte offset `pos`, `CheckCrcState` holds
the expected CRC, `FailureState` holds the failure reason. -/
inductive IState
  | startS
  | headerS
  | uploadS (page : Page) (pos : Nat)
  | checkCrcS (crc : Nat)
  | waitForDoneS
  | failureS (f : Failure)
  | completeS
  deriving DecidableEq

/-- The mutable fields of class `StateMachine` as a record: the optional
target serial, the adopted serial, the page list, the two cursor fields and
the current internal state. -/
structure SM where
  targetSerial : Option (List Nat)
  serial : Option (List Nat)
  pages : List Page
  currentPage : Nat
  confirmedPage : Int
  istate : IState
  deriving DecidableEq

/-- Method `StateMachine.progress`, abstracted over the two fields it
reads: `0.0` if no page has been confirmed, else the percentage of
confirmed pages, or `100.0` for an empty page list. -/
def progressFormula (confirmed : Int) (total : Nat) : ℚ :=
  if confirmed < 0 then 0
  else if 0 < total then ((confirmed : ℚ) * 100) / (total : ℚ)
  else 100

/-- Method `StateMachine.progress` applied to the machine's own fields. -/
def SM.progress (sm : SM) : ℚ := progressFormula sm.confirmedPage sm.pages.length

/-- Method `details()` of the current internal state: the `StateUpdate`
pushed by `transition_to`. `StartState` and `HeaderState` report the
literal progress 0; the others call `StateMachine.progress`. -/
def SM.details (sm : SM) : StateUpdate :=
  match sm.istate with
  | IState.startS => ⟨State.start, sm.serial, none, 0⟩
  | IState.headerS => ⟨State.header, sm.serial, none, 0⟩
  | IState.uploadS _ _ => ⟨State.upload, sm.serial, none, sm.progress⟩
  | IState.checkCrcS _ => ⟨State.checkCrc, sm.serial, none, sm.progress⟩
  | IState.waitForDoneS => ⟨State.waitForDone, sm.serial, none, sm.progress⟩
  | IState.failureS f => ⟨State.failure, sm.serial, some f, sm.progress⟩
  | IState.completeS => ⟨State.complete, sm.serial, none, sm.progress⟩

/-- Little-endian 4-byte encoding `struct.pack("<I", c)` of a 32-bit CRC. -/
def crcBytesLE (c : Nat) : List Nat :=
  [c % 256, c / 256 % 256, c / 65536 % 256, c / 16777216 % 256]

/-- Result of processing one inbound frame: the machine afterwards, the
replies sent via `StateMachine.reply` and the status updates pushed by
`transition_to`, each in call order. -/
structure StepOut where
  sm : SM
  replies : List (List Nat)
  updates : List StateUpdate
  deriving DecidableEq

/-- Model of `transition_to(FailureState(f))`. -/
def SM.fail (sm : SM) (f : Failure) : StepOut :=
  let sm' := { sm with istate := IState.failureS f }
  ⟨sm', [], [sm'.details]⟩

/-- Method `process` of the current internal state: dispatch on the state,
then on the inbound frame, exactly as in `can_upgrade.py` (HELLO detection
is `len(data) == 8 and data[0] == 0x33`, the 1-byte commands are START
0x53, PAGE 0x50, CRC 0x43, DONE 0x44, ERROR 0x45). -/
def SM.process (sm : SM) (d : List Nat) : StepOut :=
  match sm.istate with
  | IState.startS =>
      if d.length = 8 ∧ d.getD 0 0 = 0x33 then
        let ds := [d.getD 7 0, d.getD 6 0, d.getD 5 0, d.getD 4 0]
        if sm.targetSerial = none ∨ sm.targetSerial = some ds then
          let sm' := { sm with serial := some ds, istate := IState.headerS }
          ⟨sm', [(d.drop 4).take 4], [sm'.details]⟩
        else ⟨sm, [], []⟩
      else if d.length = 1 ∧ (d.getD 0 0 = 0x53 ∨ d.getD 0 0 = 0x50 ∨
          d.getD 0 0 = 0x43 ∨ d.getD 0 0 = 0x44) then
        sm.fail Failure.upgradeInProgress
      else sm.fail Failure.protocolError
  | IState.headerS =>
      if d.length = 1 ∧ d.getD 0 0 = 0x53 then
        match sm.pages[sm.currentPage]? with
        | some p =>
            let sm' := { sm with istate := IState.uploadS p 0 }
            ⟨sm', [[sm.pages.length]], [sm'.details]⟩
        | none =>
            let sm' := { sm with istate := IState.waitForDoneS }
            ⟨sm', [[sm.pages.length]], [sm'.details]⟩
      else if d.length = 8 ∧ d.getD 0 0 = 0x33 then ⟨sm, [], []⟩
      else sm.fail Failure.protocolError
  | IState.uploadS p pos =>
      if d.length = 1 ∧ d.getD 0 0 = 0x50 then
        let sm1 := if pos = 0 then { sm with confirmedPage := sm.confirmedPage + 1 } else sm
        let rep := (p.data.drop pos).take 8
        if pos + 8 = 1024 then
          let sm2 := { sm1 with istate := IState.checkCrcS p.crc }
          ⟨sm2, [rep], [sm2.details]⟩
        else ⟨{ sm1 with istate := IState.uploadS p (pos + 8) }, [rep], []⟩
      else if d.length = 1 ∧ d.getD 0 0 = 0x45 then sm.fail Failure.pageCrcError
      else if d.length = 8 ∧ d.getD 0 0 = 0x33 then ⟨sm, [], []⟩
      else sm.fail Failure.protocolError
  | IState.checkCrcS c =>
      if d.length = 1 ∧ d.getD 0 0 = 0x43 then
        let sm1 := { sm with currentPage := sm.currentPage + 1 }
        match sm1.pages[sm1.currentPage]? with
        | some q =>
            let sm2 := { sm1 with istate := IState.uploadS q 0 }
            ⟨sm2, [crcBytesLE c], [sm2.details]⟩
        | none =>
            let sm2 := { sm1 with istate := IState.waitForDoneS }
            ⟨sm2, [crcBytesLE c], [sm2.details]⟩
      else if d.length = 8 ∧ d.getD 0 0 = 0x33 then ⟨sm, [], []⟩
      else sm.fail Failure.protocolError
  | IState.waitForDoneS =>
      if d.length = 1 ∧ d.getD 0 0 = 0x44 then
        let sm2 := { sm with confirmedPage := sm.confirmedPage + 1,
                             istate := IState.completeS }
        ⟨sm2, [], [sm2.details]⟩
      else if d.length = 1 ∧ d.getD 0 0 = 0x45 then sm.fail Failure.pageCrcError
      else if d.length = 8 ∧ d.getD 0 0 = 0x33 then ⟨sm, [], []⟩
      else sm.fail Failure.protocolError
  | IState.failureS _ => ⟨sm, [], []⟩
  | IState.completeS => ⟨sm, [], []⟩

/-- Process a whole sequence of inbound frames, concatenating the replies
sent and the updates pushed. -/
def SM.runFrames (sm : SM) : List (List Nat) → StepOut
  | [] => ⟨sm, [], []⟩
  | d :: rest =>
      let r := sm.process d
      let r2 := r.sm.runFrames rest
      ⟨r2.sm, r.replies ++ r2.replies, r.updates ++ r2.updates⟩

/-- The machine as the `StateMachine.__init__` constructor builds it:
cursor at page 0, confirmed page -1, no adopted serial, initial state
`StartState` (whose entry update is pushed at construction). -/
def SM.init (target : Option (List Nat)) (pages : List Page) : SM :=
  { targetSerial := target, serial := none, pages := pages,
    currentPage := 0, confirmedPage := -1, istate := IState.startS }

/-- All status updates a consumer can observe for a run: the update pushed
at construction (entry into `StartState`) followed by the updates pushed
while processing the frames. -/
def fullTrace (target : Option (List Nat)) (pages : List Page)
    (frames : List (List Nat)) : List StateUpdate :=
  (SM.init target pages).details :: ((SM.init target pages).runFrames frames).updates

/-- All replies sent during a run. -/
def fullReplies (target : Option (List Nat)) (pages : List Page)
    (frames : List (List Nat)) : List (List Nat) :=
  ((SM.init target pages).runFrames frames).replies

/-- Constructor `CanUpgrader.__init__`: load and chunk the firmware (which
may fail with the too-large error before anything else happens), then
construct the state machine, which pushes the initial update; the empty
middle component records that construction itself sends no CAN frame. -/
def CanUpgrader.construct (target : Option (List Nat)) (firmware : List Nat) :
    Except Unit (SM × List (List Nat) × List StateUpdate) :=
  match loadFirmware firmware 0 with
  | Except.error e => Except.error e
  | Except.ok ps => Except.ok (SM.init target ps, [], [(SM.init target ps).details])

/-- An 8-byte HELLO frame with reserved bytes `b1 b2 b3` and wire-order
serial bytes `s0 s1 s2 s3` at offsets 4..7. -/
def helloFrame (b1 b2 b3 s0 s1 s2 s3 : Nat) : List Nat :=
  [0x33, b1, b2, b3, s0, s1, s2, s3]

/-- The frames a device sends for one page in a clean run: 128 PAGE
requests then one CRC request. -/
def pageBlock : List (List Nat) := List.replicate 128 [0x50] ++ [[0x43]]

/-- The inbound frame sequence of a clean `n`-page run: HELLO, START,
`n` page blocks, DONE. -/
def cleanFrames (hello : List Nat) (n : Nat) : List (List Nat) :=
  hello :: [0x53] :: ((List.replicate n pageBlock).flatten ++ [[0x44]])

/-- The states a clean `n`-page run visits. -/
def cleanStates (n : Nat) : List State :=
  State.start :: State.header ::
    ((List.replicate n [State.upload, State.checkCrc]).flatten
      ++ [State.waitForDone, State.complete])

/-- Invariant of every reachable machine: while still in `StartState` or
`HeaderState` no page has been confirmed, and in `StartState` no serial
has been adopted. -/
def StateInv (sm : SM) : Prop :=
  ((sm.istate = IState.startS ∨ sm.istate = IState.headerS) →
    sm.confirmedPage = -1) ∧
  (sm.istate = IState.startS → sm.serial = none)

/- ### The facade: CanUpgrader.run -/

/-- The externally visible fields of `CanUpgrader` that `run` assigns on
every popped update. -/
structure UpgraderView where
  state : State
  serialno : Option (List Nat)
  failure : Option Failure
  progress : ℚ
  deriving DecidableEq

/-- The four assignments `run` performs for each popped update. -/
def applyUpdate (_v : UpgraderView) (u : StateUpdate) : UpgraderView :=
  ⟨u.state, u.serialno, u.failure, u.progress⟩

/-- Whether an update is terminal (`self._state in (State.COMPLETE,
State.FAILURE)`). -/
def isTerminal (u : StateUpdate) : Bool :=
  decide (u.state = State.complete ∨ u.state = State.failure)

/-- Method `CanUpgrader.run`: pop queued updates one at a time; the queue
is modelled as the list of updates that will arrive, each tagged with the
time gap before it arrives, and `queue.get(True, timeout)` succeeds
exactly when that gap is within the timeout. Each popped update is
assigned to the visible fields; `run` returns `True` on a terminal update
and `False` when a pop times out (`queue.Empty`). -/
def CanUpgrader.run (timeout : ℚ) :
    List (ℚ × StateUpdate) → UpgraderView → Bool × UpgraderView
  | [], v => (false, v)
  | (gap, u) :: rest, v =>
      if gap ≤ timeout then
        if isTerminal u then (true, applyUpdate v u)
        else CanUpgrader.run timeout rest (applyUpdate v u)
      else (false, v)

/- ### Theorems -/

theorem crcSteps_eq_iterate (n c : Nat) : crcSteps n c = crcOne^[n] c := by
  induction n generalizing c with
  | zero => rfl
  | succ n ih => rw [crcSteps, ih, Function.iterate_succ_apply]

theorem toWords_chunk4_foldl :
    ∀ (bs : List Nat), 4 ∣ bs.length → ∀ c : Nat,
      (toWords bs).foldl (fun crc word => crcSteps 32 (crc ^^^ word)) c
        = (chunk4 bs).foldl (fun crc chunk => crcOne^[32] (crc ^^^ leWord chunk)) c
  | [] => by intro _ c; rfl
  | [b0] => by
      intro h _
      simp only [List.length_cons, List.length_nil] at h
      omega
  | [b0, b1] => by
      intro h _
      simp only [List.length_cons, List.length_nil] at h
      omega
  | [b0, b1, b2] => by
      intro h _
      simp only [List.length_cons, List.length_nil] at h
      omega
  | b0 :: b1 :: b2 :: b3 :: rest => by
      intro h c
      have h4 : 4 ∣ rest.length := by
        simp only [List.length_cons] at h
        omega
      have ih := toWords_chunk4_foldl rest h4
      simp only [toWords, chunk4, List.foldl_cons]
      rw [ih, crcSteps_eq_iterate]
      congr 2
      simp only [leWord, List.foldr]
      ring_nf

theorem foldl_replicate_zero :
    ∀ (n : Nat) (c : Nat),
      (List.replicate n 0).foldl (fun crc word => crcSteps 32 (crc ^^^ word)) c
        = crcZero^[n] c := by
  intro n
  induction n with
  | zero => intro c; rfl
  | succ n ih =>
      intro c
      rw [List.replicate_succ, List.foldl_cons, ih, Function.iterate_succ_apply]
      simp only [Nat.xor_zero]
      rfl

theorem toWords_replicate (n : Nat) :
    toWords (List.replicate (4 * n) 0) = List.replicate n 0 := by
  induction n with
  | zero => rfl
  | succ n ih =>
      have e : 4 * (n + 1) = (4 * n) + 1 + 1 + 1 + 1 := by ring
      rw [e, List.replicate_succ, List.replicate_succ, List.replicate_succ,
        List.replicate_succ, toWords, ih]
      norm_num
      rw [List.replicate_succ]

set_option maxRecDepth 4000 in
theorem crcZero_chain : crcZero^[255] 0x21eee01e = 0xF1B78CE3 := by
  have h1 : crcZero^[5] (0x21eee01e : Nat) = 0x8150662e := by decide
  have h2 : crcZero^[5] (0x8150662e : Nat) = 0xeebf11b1 := by decide
  have h3 : crcZero^[5] (0xeebf11b1 : Nat) = 0xa12c5e57 := by decide
  have h4 : crcZero^[5] (0xa12c5e57 : Nat) = 0xed43be3d := by decide
  have h5 : crcZero^[5] (0xed43be3d : Nat) = 0xa13ee1ff := by decide
  have h6 : crcZero^[5] (0xa13ee1ff : Nat) = 0x93dfc1f1 := by decide
  have h7 : crcZero^[5] (0x93dfc1f1 : Nat) = 0x5a347e6b := by decide
  have h8 : crcZero^[5] (0x5a347e6b : Nat) = 0x6bd331c3 := by decide
  have h9 : crcZero^[5] (0x6bd331c3 : Nat) = 0xb1c80382 := by decide
  have h10 : crcZero^[5] (0xb1c80382 : Nat) = 0x2ec34dc5 := by decide
  have h11 : crcZero^[5] (0x2ec34dc5 : Nat) = 0x3093f157 := by decide
  have h12 : crcZero^[5] (0x3093f157 : Nat) = 0x18a9bc9e := by decide
  have h13 : crcZero^[5] (0x18a9bc9e : Nat) = 0x584e11f2 := by decide
  have h14 : crcZero^[5] (0x584e11f2 : Nat) = 0xe4dea99 := by decide
  have h15 : crcZero^[5] (0xe4dea99 : Nat) = 0xcb1c53b5 := by decide
  have h16 : crcZero^[5] (0xcb1c53b5 : Nat) = 0x4facfb5 := by decide
  have h17 : crcZero^[5] (0x4facfb5 : Nat) = 0x3227bc30 := by decide
  have h18 : crcZero^[5] (0x3227bc30 : Nat) = 0x8789b6d7 := by decide
  have h19 : crcZero^[5] (0x8789b6d7 : Nat) = 0x4ce605e8 := by decide
  have h20 : crcZero^[5] (0x4ce605e8 : Nat) = 0x4ae415ab := by decide
  have h21 : crcZero^[5] (0x4ae415ab : Nat) = 0xdd5c0c9 := by decide
  have h22 : crcZero^[5] (0xdd5c0c9 : Nat) = 0x985a16c9 := by decide
  have h23 : crcZero^[5] (0x985a16c9 : Nat) = 0x53a71fac := by decide
  have h24 : crcZero^[5] (0x53a71fac : Nat) = 0x3828a0de := by decide
  have h25 : crcZero^[5] (0x3828a0de : Nat) = 0x15d8783f := by decide
  have h26 : crcZero^[5] (0x15d8783f : Nat) = 0x17a2b394 := by decide
  have h27 : crcZero^[5] (0x17a2b394 : Nat) = 0x3c172f40 := by decide
  have h28 : crcZero^[5] (0x3c172f40 : Nat) = 0x2435e596 := by decide
  have h29 : crcZero^[5] (0x2435e596 : Nat) = 0xee41b810 := by decide
  have h30 : crcZero^[5] (0xee41b810 : Nat) = 0xe6ffdcdf := by decide
  have h31 : crcZero^[5] (0xe6ffdcdf : Nat) = 0x87fc0151 := by decide
  have h32 : crcZero^[5] (0x87fc0151 : Nat) = 0xe945008e := by decide
  have h33 : crcZero^[5] (0xe945008e : Nat) = 0xf8070282 := by decide
  have h34 : crcZero^[5] (0xf8070282 : Nat) = 0xfde295b0 := by decide
  have h35 : crcZero^[5] (0xfde295b0 : Nat) = 0x70924fcf := by decide
  have h36 : crcZero^[5] (0x70924fcf : Nat) = 0xe3be63a6 := by decide
  have h37 : crcZero^[5] (0xe3be63a6 : Nat) = 0x62679eb6 := by decide
  have h38 : crcZero^[5] (0x62679eb6 : Nat) = 0xa03055b1 := by decide
  have h39 : crcZero^[5] (0xa03055b1 : Nat) = 0x3dcc9b41 := by decide
  have h40 : crcZero^[5] (0x3dcc9b41 : Nat) = 0xa623d91e := by decide
  have h41 : crcZero^[5] (0xa623d91e : Nat) = 0x418a22a3 := by decide
  have h42 : crcZero^[5] (0x418a22a3 : Nat) = 0x34216b51 := by decide
  have h43 : crcZero^[5] (0x34216b51 : Nat) = 0xf95b5460 := by decide
  have h44 : crcZero^[5] (0xf95b5460 : Nat) = 0x99a28865 := by decide
  have h45 : crcZero^[5] (0x99a28865 : Nat) = 0x31c3c74f := by decide
  have h46 : crcZero^[5] (0x31c3c74f : Nat) = 0x9f9555a6 := by decide
  have h47 : crcZero^[5] (0x9f9555a6 : Nat) = 0xa3a75d1a := by decide
  have h48 : crcZero^[5] (0xa3a75d1a : Nat) = 0x43d1199b := by decide
  have h49 : crcZero^[5] (0x43d1199b : Nat) = 0xc74ea945 := by decide
  have h50 : crcZero^[5] (0xc74ea945 : Nat) = 0xe917e0c3 := by decide
  have h51 : crcZero^[5] (0xe917e0c3 : Nat) = 0xf1b78ce3 := by decide
  have key : ∀ (m : Nat) (c c' : Nat), crcZero^[5] c = c' → crcZero^[m + 5] c = crcZero^[m] c' := by
    intro m c c' h
    rw [Function.iterate_add_apply, h]
  calc crcZero^[255] (0x21eee01e : Nat) = crcZero^[250] 0x8150662e := key 250 _ _ h1
    _ = crcZero^[245] 0xeebf11b1 := key 245 _ _ h2
    _ = crcZero^[240] 0xa12c5e57 := key 240 _ _ h3
    _ = crcZero^[235] 0xed43be3d := key 235 _ _ h4
    _ = crcZero^[230] 0xa13ee1ff := key 230 _ _ h5
    _ = crcZero^[225] 0x93dfc1f1 := key 225 _ _ h6
    _ = crcZero^[220] 0x5a347e6b := key 220 _ _ h7
    _ = crcZero^[215] 0x6bd331c3 := key 215 _ _ h8
    _ = crcZero^[210] 0xb1c80382 := key 210 _ _ h9
    _ = crcZero^[205] 0x2ec34dc5 := key 205 _ _ h10
    _ = crcZero^[200] 0x3093f157 := key 200 _ _ h11
    _ = crcZero^[195] 0x18a9bc9e := key 195 _ _ h12
    _ = crcZero^[190] 0x584e11f2 := key 190 _ _ h13
    _ = crcZero^[185] 0xe4dea99 := key 185 _ _ h14
    _ = crcZero^[180] 0xcb1c53b5 := key 180 _ _ h15
    _ = crcZero^[175] 0x4facfb5 := key 175 _ _ h16
    _ = crcZero^[170] 0x3227bc30 := key 170 _ _ h17
    _ = crcZero^[165] 0x8789b6d7 := key 165 _ _ h18
    _ = crcZero^[160] 0x4ce605e8 := key 160 _ _ h19
    _ = crcZero^[155] 0x4ae415ab := key 155 _ _ h20
    _ = crcZero^[150] 0xdd5c0c9 := key 150 _ _ h21
    _ = crcZero^[145] 0x985a16c9 := key 145 _ _ h22
    _ = crcZero^[140] 0x53a71fac := key 140 _ _ h23
    _ = crcZero^[135] 0x3828a0de := key 135 _ _ h24
    _ = crcZero^[130] 0x15d8783f := key 130 _ _ h25
    _ = crcZero^[125] 0x17a2b394 := key 125 _ _ h26
    _ = crcZero^[120] 0x3c172f40 := key 120 _ _ h27
    _ = crcZero^[115] 0x2435e596 := key 115 _ _ h28
    _ = crcZero^[110] 0xee41b810 := key 110 _ _ h29
    _ = crcZero^[105] 0xe6ffdcdf := key 105 _ _ h30
    _ = crcZero^[100] 0x87fc0151 := key 100 _ _ h31
    _ = crcZero^[95] 0xe945008e := key 95 _ _ h32
    _ = crcZero^[90] 0xf8070282 := key 90 _ _ h33
    _ = crcZero^[85] 0xfde295b0 := key 85 _ _ h34
    _ = crcZero^[80] 0x70924fcf := key 80 _ _ h35
    _ = crcZero^[75] 0xe3be63a6 := key 75 _ _ h36
    _ = crcZero^[70] 0x62679eb6 := key 70 _ _ h37
    _ = crcZero^[65] 0xa03055b1 := key 65 _ _ h38
    _ = crcZero^[60] 0x3dcc9b41 := key 60 _ _ h39
    _ = crcZero^[55] 0xa623d91e := key 55 _ _ h40
    _ = crcZero^[50] 0x418a22a3 := key 50 _ _ h41
    _ = crcZero^[45] 0x34216b51 := key 45 _ _ h42
    _ = crcZero^[40] 0xf95b5460 := key 40 _ _ h43
    _ = crcZero^[35] 0x99a28865 := key 35 _ _ h44
    _ = crcZero^[30] 0x31c3c74f := key 30 _ _ h45
    _ = crcZero^[25] 0x9f9555a6 := key 25 _ _ h46
    _ = crcZero^[20] 0xa3a75d1a := key 20 _ _ h47
    _ = crcZero^[15] 0x43d1199b := key 15 _ _ h48
    _ = crcZero^[10] 0xc74ea945 := key 10 _ _ h49
    _ = crcZero^[5] 0xe917e0c3 := key 5 _ _ h50
    _ = crcZero^[0] 0xf1b78ce3 := key 0 _ _ h51
    _ = 0xF1B78CE3 := rfl

theorem stm_crc_testVec : stm_crc (0xA5 :: List.replicate 1023 0) = 0xF1B78CE3 := by
  have e1 : (0xA5 : Nat) :: List.replicate 1023 0
      = 0xA5 :: 0 :: 0 :: 0 :: List.replicate 1020 0 := rfl
  have e2 : toWords (0xA5 :: List.replicate 1023 0) = 0xA5 :: List.replicate 255 0 := by
    rw [e1, toWords, show (1020 : Nat) = 4 * 255 from rfl, toWords_replicate]
  rw [stm_crc, e2, List.foldl_cons]
  show (List.replicate 255 0).foldl (fun crc word => crcSteps 32 (crc ^^^ word))
      (crcSteps 32 (0xffffffff ^^^ 0xA5)) = 0xF1B78CE3
  have h0 : crcSteps 32 (0xffffffff ^^^ 0xA5) = 0x21eee01e := by decide
  rw [h0, foldl_replicate_zero, crcZero_chain]

/-- C1: `stm_crc` implements exactly the word-wise CRC-32/MPEG-2 variant —
for every byte buffer whose length is a multiple of 4 it agrees with the
spec-side `crc32_variant` (little-endian words, init `0xFFFFFFFF`, XOR each
word in, 32 shift-and-conditional-XOR steps with polynomial `0x04C11DB7`
and 32-bit wraparound, no final XOR) — and on the 1024-byte input
`0xA5` followed by 1023 zero bytes it returns `0xF1B78CE3`. -/
theorem C1_stm_crc_word_wise_mpeg2 :
    (∀ data : List Nat, 4 ∣ data.length → stm_crc data = crc32_variant data) ∧
    stm_crc (0xA5 :: List.replicate 1023 0) = 0xF1B78CE3 :=
  ⟨fun data h => toWords_chunk4_foldl data h 0xffffffff, stm_crc_testVec⟩

theorem C1_witness :
    4 ∣ ([0xA5, 1, 2, 3] : List Nat).length ∧
      stm_crc [0xA5, 1, 2, 3] = crc32_variant [0xA5, 1, 2, 3] :=
  ⟨by decide, C1_stm_crc_word_wise_mpeg2.1 [0xA5, 1, 2, 3] (by decide)⟩

/- ### Loader theorems -/

theorem chunkPages_length :
    ∀ bs : List Nat, (chunkPages bs).length = (bs.length + 1023) / 1024
  | [] => by simp [chunkPages]
  | b :: rest => by
      rw [chunkPages]
      simp only [List.length_cons, chunkPages_length ((b :: rest).drop 1024),
        List.length_drop]
      omega
  termination_by bs => bs.length
  decreasing_by simp [List.length_drop]; omega

theorem chunkPages_getElem? :
    ∀ (bs : List Nat) (i : Nat), i < (chunkPages bs).length →
      (chunkPages bs)[i]? = some (Page.ofData ((bs.drop (1024 * i)).take 1024))
  | [], i => by
      intro h
      rw [chunkPages] at h
      simp at h
  | b :: rest, 0 => by
      intro h
      rw [chunkPages]
      simp
  | b :: rest, i + 1 => by
      intro h
      rw [chunkPages] at h ⊢
      simp only [List.length_cons, List.getElem?_cons_succ] at h ⊢
      rw [chunkPages_getElem? ((b :: rest).drop 1024) i (by omega)]
      rw [List.drop_drop]
      have e : 1024 + 1024 * i = 1024 * (i + 1) := by ring
      rw [e]
  termination_by bs _ => bs.length
  decreasing_by simp [List.length_drop]; omega

theorem loadFirmware_eq :
    ∀ (bs : List Nat) (n : Nat), n ≤ 255 →
      loadFirmware bs n =
        if n + (bs.length + 1023) / 1024 ≤ 255 then Except.ok (chunkPages bs)
        else Except.error ()
  | [] => by
      intro n hn
      rw [loadFirmware, chunkPages, if_pos]
      simpa using hn
  | b :: rest => by
      intro n hn
      rw [loadFirmware]
      by_cases h255 : n + 1 > 255
      · rw [if_pos h255, if_neg]
        simp only [List.length_cons]
        omega
      · have hn1 : n + 1 ≤ 255 := by omega
        rw [if_neg h255, loadFirmware_eq ((b :: rest).drop 1024) (n + 1) hn1]
        have hL : ((b :: rest).drop 1024).length = (b :: rest).length - 1024 :=
          List.length_drop 1024 (b :: rest)
        by_cases hc : n + ((b :: rest).length + 1023) / 1024 ≤ 255
        · have hc' : n + 1 + (((b :: rest).drop 1024).length + 1023) / 1024 ≤ 255 := by
            rw [hL]
            simp only [List.length_cons] at hc ⊢
            omega
          rw [if_pos hc', if_pos hc, chunkPages]
        · have hc' : ¬(n + 1 + (((b :: rest).drop 1024).length + 1023) / 1024 ≤ 255) := by
            rw [hL]
            simp only [List.length_cons] at hc ⊢
            omega
          rw [if_neg hc', if_neg hc]
  termination_by bs => bs.length
  decreasing_by simp [List.length_drop]; omega

theorem Page.ofData_spec (d : List Nat) (h0 : 0 < d.length) (h1 : d.length ≤ 1024) :
    (Page.ofData d).data = d ++ List.replicate (1024 - d.length) 0 ∧
    (Page.ofData d).data.length = 1024 := by
  by_cases he : d.length = 1024
  · have hm : d.length % 1024 = 0 := by omega
    have hd : (Page.ofData d).data = d := by
      rw [Page.ofData]
      simp [hm]
    rw [hd, he]
    simp [he]
  · have hlt : d.length < 1024 := by omega
    have hm : d.length % 1024 = d.length := Nat.mod_eq_of_lt hlt
    have hne : (1024 : Nat) - d.length % 1024 ≠ 1024 := by omega
    have hne2 : (1024 : Nat) - d.length ≠ 1024 := by omega
    have hdata : (Page.ofData d).data = d ++ List.replicate (1024 - d.length) 0 := by
      rw [Page.ofData]
      simp only [hm]
      rw [if_pos hne2]
    refine ⟨hdata, ?_⟩
    rw [hdata]
    simp only [List.length_append, List.length_replicate]
    omega

theorem chunkPages_get (bs : List Nat) (i : Nat) (h : i < (chunkPages bs).length) :
    (chunkPages bs).get ⟨i, h⟩ = Page.ofData ((bs.drop (1024 * i)).take 1024) := by
  have h2 := chunkPages_getElem? bs i h
  rw [List.getElem?_eq_getElem h] at h2
  simpa [List.get_eq_getElem] using h2

/-- C5 (amended): for every firmware image within the 255-page limit,
loading produces `ceil(b / 1024)` pages; a zero-byte input produces zero
pages; each page consists of its 1024-byte chunk right-padded with zeros
to exactly 1024 bytes; and when the input length is an exact multiple of
1024 every page is its unmodified chunk. (The un-amended claim fails for
inputs longer than 255 * 1024 bytes, which error instead of producing
pages — see the counterexample.) -/
theorem C5_load_chunking (bs : List Nat) (hle : bs.length ≤ 255 * 1024) :
    ∃ ps : List Page, loadFirmware bs 0 = Except.ok ps ∧
      ps.length = (bs.length + 1023) / 1024 ∧
      (bs = [] → ps = []) ∧
      (∀ i (h : i < ps.length),
        (ps.get ⟨i, h⟩).data
            = (bs.drop (1024 * i)).take 1024
              ++ List.replicate (1024 - ((bs.drop (1024 * i)).take 1024).length) 0
          ∧ (ps.get ⟨i, h⟩).data.length = 1024) ∧
      (bs.length % 1024 = 0 →
        ∀ i (h : i < ps.length),
          (ps.get ⟨i, h⟩).data = (bs.drop (1024 * i)).take 1024) := by
  refine ⟨chunkPages bs, ?_, chunkPages_length bs, ?_, ?_, ?_⟩
  · rw [loadFirmware_eq bs 0 (by omega),
      if_pos (show 0 + (bs.length + 1023) / 1024 ≤ 255 by omega)]
  · intro hbs
    rw [hbs, chunkPages]
  · intro i h
    have hlen := chunkPages_length bs
    have hi : 1024 * i < bs.length := by
      rw [hlen] at h
      omega
    have hchunk : ((bs.drop (1024 * i)).take 1024).length
        = min 1024 (bs.length - 1024 * i) := by
      simp [List.length_take, List.length_drop]
    rw [chunkPages_get bs i h]
    exact Page.ofData_spec _ (by omega) (by omega)
  · intro hmod i h
    have hlen := chunkPages_length bs
    have hi : 1024 * i < bs.length := by
      rw [hlen] at h
      omega
    have hchunk : ((bs.drop (1024 * i)).take 1024).length
        = min 1024 (bs.length - 1024 * i) := by
      simp [List.length_take, List.length_drop]
    have hfull : ((bs.drop (1024 * i)).take 1024).length = 1024 := by omega
    rw [chunkPages_get bs i h]
    rcases Page.ofData_spec ((bs.drop (1024 * i)).take 1024)
      (by omega) (by omega) with ⟨hd, _⟩
    rw [hd, hfull]
    simp

theorem C5_witness :
    ([7] : List Nat).length ≤ 255 * 1024 ∧
      ∃ ps : List Page, loadFirmware [7] 0 = Except.ok ps ∧ ps.length = 1 := by
  refine ⟨by norm_num, ?_⟩
  obtain ⟨ps, hok, hlen, -, -, -⟩ := C5_load_chunking [7] (by norm_num)
  exact ⟨ps, hok, by simpa using hlen⟩

/-- C5 counterexample: an input of 256 * 1024 bytes has length an exact
multiple of 1024, yet loading it yields the too-large error rather than
256 pages, refuting the unrestricted claim. -/
theorem C5_counterexample :
    (List.replicate (256 * 1024) (0 : Nat)).length % 1024 = 0 ∧
    loadFirmware (List.replicate (256 * 1024) 0) 0 = Except.error () := by
  constructor
  · rw [List.length_replicate]
  · rw [loadFirmware_eq _ 0 (by norm_num)]
    rw [if_neg]
    rw [List.length_replicate]
    norm_num

/-- C6: loading a firmware of exactly 255 * 1024 bytes succeeds with 255
pages (and construction sends no CAN frame — the replies component is
empty); loading any firmware of 255 * 1024 + 1 bytes or more fails during
construction with the too-large error, producing no machine, no send and
no status update. -/
theorem C6_max_pages_boundary :
    (∀ (target : Option (List Nat)) (bs : List Nat), bs.length = 255 * 1024 →
      ∃ sm : SM, CanUpgrader.construct target bs
          = Except.ok (sm, ([] : List (List Nat)), [sm.details]) ∧
        sm.pages.length = 255) ∧
    (∀ (target : Option (List Nat)) (bs : List Nat), 255 * 1024 + 1 ≤ bs.length →
      CanUpgrader.construct target bs = Except.error ()) := by
  constructor
  · intro target bs hlen
    refine ⟨SM.init target (chunkPages bs), ?_, ?_⟩
    · rw [CanUpgrader.construct, loadFirmware_eq bs 0 (by omega),
        if_pos (by omega)]
    · show (chunkPages bs).length = 255
      rw [chunkPages_length, hlen]
  · intro target bs hlen
    rw [CanUpgrader.construct, loadFirmware_eq bs 0 (by omega), if_neg (by omega)]

theorem C6_witness :
    (∃ sm : SM, CanUpgrader.construct none (List.replicate (255 * 1024) 0)
        = Except.ok (sm, ([] : List (List Nat)), [sm.details]) ∧
      sm.pages.length = 255) ∧
    CanUpgrader.construct none (List.replicate (255 * 1024 + 1) 0)
        = Except.error () :=
  ⟨C6_max_pages_boundary.1 none (List.replicate (255 * 1024) 0)
      (by rw [List.length_replicate]),
   C6_max_pages_boundary.2 none (List.replicate (255 * 1024 + 1) 0)
      (by rw [List.length_replicate])⟩

/- ### Start-state serial filtering (C3) -/

/-- C3: in the Start state, an 8-byte HELLO frame whose byte-reversed
serial (bytes 7,6,5,4) does not equal a configured target leaves the
machine unchanged with no reply and no update; a HELLO whose serial
matches (or when no target is configured) adopts that serial, transitions
to Header, and replies with exactly the 4 raw bytes at offsets 4..7. -/
theorem C3_serial_filtering (sm : SM) (d : List Nat)
    (hs : sm.istate = IState.startS) (hlen : d.length = 8) (hb : d.getD 0 0 = 0x33) :
    (sm.targetSerial ≠ none ∧
        sm.targetSerial ≠ some [d.getD 7 0, d.getD 6 0, d.getD 5 0, d.getD 4 0] →
      sm.process d = ⟨sm, [], []⟩) ∧
    (sm.targetSerial = none ∨
        sm.targetSerial = some [d.getD 7 0, d.getD 6 0, d.getD 5 0, d.getD 4 0] →
      sm.process d =
        ⟨{ sm with
            serial := some [d.getD 7 0, d.getD 6 0, d.getD 5 0, d.getD 4 0],
            istate := IState.headerS },
          [(d.drop 4).take 4],
          [⟨State.header, some [d.getD 7 0, d.getD 6 0, d.getD 5 0, d.getD 4 0],
            none, 0⟩]⟩) := by
  constructor
  · rintro ⟨h1, h2⟩
    simp only [SM.process, hs]
    rw [if_pos ⟨hlen, hb⟩, if_neg]
    rintro (ha | hb2)
    · exact h1 ha
    · exact h2 hb2
  · intro h
    simp only [SM.process, hs]
    rw [if_pos ⟨hlen, hb⟩, if_pos h]
    simp [SM.details]

theorem C3_witness :
    (SM.init (some [9, 9, 9, 9]) []).istate = IState.startS ∧
    ([0x33, 0, 0, 0, 1, 2, 3, 4] : List Nat).length = 8 ∧
    ([0x33, 0, 0, 0, 1, 2, 3, 4] : List Nat).getD 0 0 = 0x33 ∧
    (some [9, 9, 9, 9] : Option (List Nat)) ≠ none ∧
    (SM.init (some [9, 9, 9, 9]) []).process [0x33, 0, 0, 0, 1, 2, 3, 4]
      = ⟨SM.init (some [9, 9, 9, 9]) [], [], []⟩ := by
  refine ⟨rfl, rfl, rfl, by decide, ?_⟩
  exact (C3_serial_filtering (SM.init (some [9, 9, 9, 9]) [])
    [0x33, 0, 0, 0, 1, 2, 3, 4] rfl rfl rfl).1 ⟨by decide, by decide⟩

/- ### Interleaved HELLO tolerance (C9) -/

/-- C9: an 8-byte frame starting with the HELLO byte received in Header,
Upload, CheckCrc or WaitForDone is silently ignored — the machine record
(state object, upload offset, current page, confirmed counter, serial) is
unchanged and no reply is sent, no update pushed. -/
theorem C9_hello_ignored (sm : SM) (d : List Nat)
    (hlen : d.length = 8) (hb : d.getD 0 0 = 0x33)
    (hs : sm.istate = IState.headerS ∨
      (∃ p pos, sm.istate = IState.uploadS p pos) ∨
      (∃ c, sm.istate = IState.checkCrcS c) ∨
      sm.istate = IState.waitForDoneS) :
    sm.process d = ⟨sm, [], []⟩ := by
  have hno1 : d.length ≠ 1 := by omega
  have hn : ∀ P : Prop, ¬(d.length = 1 ∧ P) := fun P hc => hno1 hc.1
  rcases hs with h | ⟨p, pos, h⟩ | ⟨c, h⟩ | h
  · simp only [SM.process, h]
    rw [if_neg (hn _), if_pos ⟨hlen, hb⟩]
  · simp only [SM.process, h]
    rw [if_neg (hn _), if_neg (hn _), if_pos ⟨hlen, hb⟩]
  · simp only [SM.process, h]
    rw [if_neg (hn _), if_pos ⟨hlen, hb⟩]
  · simp only [SM.process, h]
    rw [if_neg (hn _), if_neg (hn _), if_pos ⟨hlen, hb⟩]

theorem C9_witness :
    ([0x33, 7, 7, 7, 1, 2, 3, 4] : List Nat).length = 8 ∧
    ([0x33, 7, 7, 7, 1, 2, 3, 4] : List Nat).getD 0 0 = 0x33 ∧
    ({ SM.init none [] with istate := IState.waitForDoneS } : SM).process
        [0x33, 7, 7, 7, 1, 2, 3, 4]
      = ⟨{ SM.init none [] with istate := IState.waitForDoneS }, [], []⟩ :=
  ⟨rfl, rfl,
    C9_hello_ignored { SM.init none [] with istate := IState.waitForDoneS }
      [0x33, 7, 7, 7, 1, 2, 3, 4] rfl rfl (Or.inr (Or.inr (Or.inr rfl)))⟩

/- ### Failure classification (C4) -/

/-- C4: in Start, a 1-byte START/PAGE/CRC/DONE frame fails with
UpgradeInProgress; any frame that is neither an 8-byte HELLO nor one of
those fails with ProtocolError; in Header, Upload, CheckCrc and
WaitForDone any frame not expected by that state (and not an ignored
8-byte HELLO, nor — in Upload and WaitForDone — a 1-byte ERROR) fails
with ProtocolError; and the Failure state is terminal: any further frame
sequence leaves the machine unchanged with no replies and no updates. -/
theorem C4_failure_classification :
    (∀ (sm : SM) (d : List Nat), sm.istate = IState.startS →
      d.length = 1 →
      (d.getD 0 0 = 0x53 ∨ d.getD 0 0 = 0x50 ∨ d.getD 0 0 = 0x43 ∨ d.getD 0 0 = 0x44) →
      sm.process d =
        ⟨{ sm with istate := IState.failureS Failure.upgradeInProgress }, [],
          [⟨State.failure, sm.serial, some Failure.upgradeInProgress, sm.progress⟩]⟩) ∧
    (∀ (sm : SM) (d : List Nat), sm.istate = IState.startS →
      ¬(d.length = 8 ∧ d.getD 0 0 = 0x33) →
      ¬(d.length = 1 ∧ (d.getD 0 0 = 0x53 ∨ d.getD 0 0 = 0x50 ∨
        d.getD 0 0 = 0x43 ∨ d.getD 0 0 = 0x44)) →
      sm.process d =
        ⟨{ sm with istate := IState.failureS Failure.protocolError }, [],
          [⟨State.failure, sm.serial, some Failure.protocolError, sm.progress⟩]⟩) ∧
    (∀ (sm : SM) (d : List Nat), sm.istate = IState.headerS →
      ¬(d.length = 1 ∧ d.getD 0 0 = 0x53) → ¬(d.length = 8 ∧ d.getD 0 0 = 0x33) →
      sm.process d =
        ⟨{ sm with istate := IState.failureS Failure.protocolError }, [],
          [⟨State.failure, sm.serial, some Failure.protocolError, sm.progress⟩]⟩) ∧
    (∀ (sm : SM) (d : List Nat) (p : Page) (pos : Nat),
      sm.istate = IState.uploadS p pos →
      ¬(d.length = 1 ∧ d.getD 0 0 = 0x50) → ¬(d.length = 1 ∧ d.getD 0 0 = 0x45) →
      ¬(d.length = 8 ∧ d.getD 0 0 = 0x33) →
      sm.process d =
        ⟨{ sm with istate := IState.failureS Failure.protocolError }, [],
          [⟨State.failure, sm.serial, some Failure.protocolError, sm.progress⟩]⟩) ∧
    (∀ (sm : SM) (d : List Nat) (c : Nat), sm.istate = IState.checkCrcS c →
      ¬(d.length = 1 ∧ d.getD 0 0 = 0x43) → ¬(d.length = 8 ∧ d.getD 0 0 = 0x33) →
      sm.process d =
        ⟨{ sm with istate := IState.failureS Failure.protocolError }, [],
          [⟨State.failure, sm.serial, some Failure.protocolError, sm.progress⟩]⟩) ∧
    (∀ (sm : SM) (d : List Nat), sm.istate = IState.waitForDoneS →
      ¬(d.length = 1 ∧ d.getD 0 0 = 0x44) → ¬(d.length = 1 ∧ d.getD 0 0 = 0x45) →
      ¬(d.length = 8 ∧ d.getD 0 0 = 0x33) →
      sm.process d =
        ⟨{ sm with istate := IState.failureS Failure.protocolError }, [],
          [⟨State.failure, sm.serial, some Failure.protocolError, sm.progress⟩]⟩) ∧
    (∀ (sm : SM) (f : Failure) (frames : List (List Nat)),
      sm.istate = IState.failureS f →
      sm.runFrames frames = ⟨sm, [], []⟩) := by
  refine ⟨?_, ?_, ?_, ?_, ?_, ?_, ?_⟩
  · intro sm d hs hlen hcmd
    have h8 : ¬(d.length = 8 ∧ d.getD 0 0 = 0x33) := by
      rintro ⟨hc, -⟩
      omega
    simp only [SM.process, hs]
    rw [if_neg h8, if_pos ⟨hlen, hcmd⟩]
    simp [SM.fail, SM.details, SM.progress]
  · intro sm d hs h8 hcmd
    simp only [SM.process, hs]
    rw [if_neg h8, if_neg hcmd]
    simp [SM.fail, SM.details, SM.progress]
  · intro sm d hs h53 h33
    simp only [SM.process, hs]
    rw [if_neg h53, if_neg h33]
    simp [SM.fail, SM.details, SM.progress]
  · intro sm d p pos hs h50 h45 h33
    simp only [SM.process, hs]
    rw [if_neg h50, if_neg h45, if_neg h33]
    simp [SM.fail, SM.details, SM.progress]
  · intro sm d c hs h43 h33
    simp only [SM.process, hs]
    rw [if_neg h43, if_neg h33]
    simp [SM.fail, SM.details, SM.progress]
  · intro sm d hs h44 h45 h33
    simp only [SM.process, hs]
    rw [if_neg h44, if_neg h45, if_neg h33]
    simp [SM.fail, SM.details, SM.progress]
  · intro sm f frames hs
    induction frames with
    | nil => rfl
    | cons d rest ih =>
        have hp : sm.process d = ⟨sm, [], []⟩ := by
          simp only [SM.process, hs]
        simp only [SM.runFrames, hp]
        simp [ih]

theorem C4_witness :
    (SM.init none []).istate = IState.startS ∧
    ([0x50] : List Nat).length = 1 ∧
    (SM.init none []).process [0x50] =
      ⟨{ SM.init none [] with istate := IState.failureS Failure.upgradeInProgress },
        [],
        [⟨State.failure, (SM.init none []).serial,
          some Failure.upgradeInProgress, (SM.init none []).progress⟩]⟩ ∧
    ({ SM.init none [] with
        istate := IState.failureS Failure.protocolError } : SM).runFrames
        [[0x50], [0x44], [0x33, 0, 0, 0, 1, 2, 3, 4]]
      = ⟨{ SM.init none [] with istate := IState.failureS Failure.protocolError },
          [], []⟩ := by
  refine ⟨rfl, rfl, ?_, ?_⟩
  · exact C4_failure_classification.1 (SM.init none []) [0x50] rfl rfl
      (by norm_num)
  · exact C4_failure_classification.2.2.2.2.2.2
      { SM.init none [] with istate := IState.failureS Failure.protocolError }
      Failure.protocolError _ rfl

/- ### Reachability invariants of the state machine -/

theorem process_pages (sm : SM) (d : List Nat) :
    (sm.process d).sm.pages = sm.pages := by
  cases hs : sm.istate <;>
    simp only [SM.process, hs] <;>
    split_ifs <;>
    try split
  all_goals simp [SM.fail]

theorem process_confirmed (sm : SM) (d : List Nat) :
    sm.confirmedPage ≤ (sm.process d).sm.confirmedPage := by
  cases hs : sm.istate <;>
    simp only [SM.process, hs] <;>
    (try split_ifs) <;>
    (try split)
  all_goals simp [SM.fail]

theorem process_updates_shape (sm : SM) (d : List Nat) :
    (sm.process d).updates = [] ∨
      (sm.process d).updates = [(sm.process d).sm.details] := by
  cases hs : sm.istate <;>
    simp only [SM.process, hs] <;>
    (try split_ifs) <;>
    (try split)
  all_goals simp [SM.fail]

theorem process_serial (sm : SM) (d : List Nat) (h : sm.istate ≠ IState.startS) :
    (sm.process d).sm.serial = sm.serial ∧
    (sm.process d).sm.istate ≠ IState.startS := by
  cases hs : sm.istate <;>
    simp only [SM.process, hs] <;>
    (try split_ifs) <;>
    (try split)
  all_goals first
    | (exact absurd hs h)
    | (constructor <;> simp [SM.fail, hs])

theorem process_inv (sm : SM) (d : List Nat) (hinv : StateInv sm) :
    StateInv (sm.process d).sm := by
  obtain ⟨hc, hser⟩ := hinv
  cases hs : sm.istate <;>
    simp only [SM.process, hs] <;>
    (try split_ifs) <;>
    (try split) <;>
    constructor <;>
    simp_all [StateInv, SM.fail]

theorem details_failure_iff (sm : SM) :
    sm.details.failure ≠ none ↔ sm.details.state = State.failure := by
  cases hs : sm.istate <;> simp [SM.details, hs]

theorem details_serial (sm : SM) : sm.details.serialno = sm.serial := by
  cases hs : sm.istate <;> simp [SM.details, hs]

theorem details_progress (sm : SM) (hinv : StateInv sm) :
    sm.details.progress = sm.progress := by
  obtain ⟨hc, -⟩ := hinv
  cases hs : sm.istate <;>
    simp_all [SM.details, SM.progress, progressFormula]

theorem progressFormula_mono {c1 c2 : Int} (n : Nat) (h : c1 ≤ c2) :
    progressFormula c1 n ≤ progressFormula c2 n := by
  unfold progressFormula
  by_cases h1 : c1 < 0
  · by_cases h2 : c2 < 0
    · simp [h1, h2]
    · rw [if_pos h1, if_neg h2]
      by_cases hn : 0 < n
      · rw [if_pos hn]
        have hc2 : (0 : ℚ) ≤ (c2 : ℚ) := by exact_mod_cast not_lt.mp h2
        have hnq : (0 : ℚ) ≤ (n : ℚ) := by positivity
        exact div_nonneg (mul_nonneg hc2 (by norm_num)) hnq
      · rw [if_neg hn]
        norm_num
  · have h2 : ¬(c2 < 0) := by omega
    rw [if_neg h1, if_neg h2]
    by_cases hn : 0 < n
    · rw [if_pos hn, if_pos hn]
      gcongr
    · rw [if_neg hn, if_neg hn]

theorem runFrames_pages (sm : SM) (fs : List (List Nat)) :
    (sm.runFrames fs).sm.pages = sm.pages := by
  induction fs generalizing sm with
  | nil => rfl
  | cons d rest ih =>
      simp only [SM.runFrames]
      rw [ih, process_pages]

theorem runFrames_inv (sm : SM) (fs : List (List Nat)) (hinv : StateInv sm) :
    StateInv (sm.runFrames fs).sm := by
  induction fs generalizing sm with
  | nil => exact hinv
  | cons d rest ih =>
      simp only [SM.runFrames]
      exact ih _ (process_inv sm d hinv)

theorem runFrames_confirmed (sm : SM) (fs : List (List Nat)) :
    sm.confirmedPage ≤ (sm.runFrames fs).sm.confirmedPage := by
  induction fs generalizing sm with
  | nil => exact le_refl _
  | cons d rest ih =>
      simp only [SM.runFrames]
      exact (process_confirmed sm d).trans (ih (sm.process d).sm)

theorem runFrames_serial (sm : SM) (fs : List (List Nat))
    (h : sm.istate ≠ IState.startS) :
    (∀ u ∈ (sm.runFrames fs).updates, u.serialno = sm.serial) ∧
    (sm.runFrames fs).sm.serial = sm.serial ∧
    (sm.runFrames fs).sm.istate ≠ IState.startS := by
  induction fs generalizing sm with
  | nil => exact ⟨by simp [SM.runFrames], rfl, h⟩
  | cons d rest ih =>
      obtain ⟨hserial, hnot⟩ := process_serial sm d h
      obtain ⟨ih1, ih2, ih3⟩ := ih (sm.process d).sm hnot
      refine ⟨?_, by simp only [SM.runFrames]; rw [ih2, hserial],
        by simp only [SM.runFrames]; exact ih3⟩
      intro u hu
      simp only [SM.runFrames, List.mem_append] at hu
      rcases hu with hu | hu
      · rcases process_updates_shape sm d with he | he
        · rw [he] at hu
          cases hu
        · rw [he] at hu
          simp only [List.mem_singleton] at hu
          subst hu
          rw [details_serial, hserial]
      · rw [ih1 u hu, hserial]

theorem runFrames_updates_details (sm : SM) (fs : List (List Nat))
    (hinv : StateInv sm) :
    ∀ u ∈ (sm.runFrames fs).updates, ∃ sm' : SM,
      u = sm'.details ∧ StateInv sm' ∧ sm'.pages = sm.pages := by
  induction fs generalizing sm with
  | nil => simp [SM.runFrames]
  | cons d rest ih =>
      intro u hu
      simp only [SM.runFrames, List.mem_append] at hu
      rcases hu with hu | hu
      · rcases process_updates_shape sm d with he | he
        · rw [he] at hu
          cases hu
        · rw [he] at hu
          simp only [List.mem_singleton] at hu
          subst hu
          exact ⟨(sm.process d).sm, rfl, process_inv sm d hinv, process_pages sm d⟩
      · obtain ⟨sm', h1, h2, h3⟩ := ih (sm.process d).sm (process_inv sm d hinv) u hu
        exact ⟨sm', h1, h2, h3.trans (process_pages sm d)⟩

theorem process_progress_mono (sm : SM) (d : List Nat) :
    sm.progress ≤ (sm.process d).sm.progress := by
  unfold SM.progress
  rw [process_pages]
  exact progressFormula_mono _ (process_confirmed sm d)

theorem runFrames_progress_chain (sm : SM) (fs : List (List Nat))
    (hinv : StateInv sm) (p : ℚ) (hp : p ≤ sm.progress) :
    List.Chain' (· ≤ ·)
      (p :: ((sm.runFrames fs).updates.map (fun u => u.progress))) := by
  induction fs generalizing sm p with
  | nil => simp [SM.runFrames]
  | cons d rest ih =>
      rcases process_updates_shape sm d with he | he
      · simp only [SM.runFrames, he, List.nil_append]
        exact ih (sm.process d).sm (process_inv sm d hinv) p
          (hp.trans (process_progress_mono sm d))
      · simp only [SM.runFrames, he, List.cons_append, List.nil_append,
          List.map_cons]
        rw [List.chain'_cons]
        have hdp : (sm.process d).sm.details.progress = (sm.process d).sm.progress :=
          details_progress _ (process_inv sm d hinv)
        constructor
        · rw [hdp]
          exact hp.trans (process_progress_mono sm d)
        · exact ih (sm.process d).sm (process_inv sm d hinv) _ (le_of_eq hdp)

theorem init_inv (target : Option (List Nat)) (pages : List Page) :
    StateInv (SM.init target pages) :=
  ⟨fun _ => rfl, fun _ => rfl⟩

theorem fullTrace_progress_chain (target : Option (List Nat)) (pages : List Page)
    (fs : List (List Nat)) :
    List.Chain' (· ≤ ·)
      ((fullTrace target pages fs).map (fun u => u.progress)) := by
  rw [fullTrace]
  simp only [List.map_cons]
  exact runFrames_progress_chain (SM.init target pages) fs
    (init_inv target pages) _ (le_refl _)

theorem runFrames_failureS (sm : SM) (fs : List (List Nat)) (f : Failure)
    (hs : sm.istate = IState.failureS f) :
    sm.runFrames fs = ⟨sm, [], []⟩ := by
  induction fs with
  | nil => rfl
  | cons d rest ih =>
      have hp : sm.process d = ⟨sm, [], []⟩ := by
        simp only [SM.process, hs]
      simp only [SM.runFrames, hp]
      simp [ih]

theorem process_start_cases (sm : SM) (d : List Nat)
    (hs : sm.istate = IState.startS) (hser : sm.serial = none) :
    sm.process d = ⟨sm, [], []⟩ ∨
    (∃ s : List Nat, (sm.process d).sm.istate = IState.headerS ∧
      (sm.process d).sm.serial = some s ∧
      (sm.process d).updates = [⟨State.header, some s, none, 0⟩]) ∨
    (∃ f : Failure, (sm.process d).sm.istate = IState.failureS f ∧
      (sm.process d).sm.serial = none ∧
      (sm.process d).updates = [(sm.process d).sm.details] ∧
      (sm.process d).sm.details.serialno = none ∧
      (sm.process d).sm.details.state = State.failure) := by
  simp only [SM.process, hs]
  split_ifs with h1 h2 h3
  · refine Or.inr (Or.inl ⟨[d.getD 7 0, d.getD 6 0, d.getD 5 0, d.getD 4 0],
      rfl, rfl, ?_⟩)
    simp [SM.details]
  · exact Or.inl rfl
  · refine Or.inr (Or.inr ⟨Failure.upgradeInProgress, rfl, hser, rfl, ?_, rfl⟩)
    simp [SM.fail, SM.details, hser]
  · refine Or.inr (Or.inr ⟨Failure.protocolError, rfl, hser, rfl, ?_, rfl⟩)
    simp [SM.fail, SM.details, hser]

theorem runFrames_start_serial (sm : SM) (fs : List (List Nat))
    (hs : sm.istate = IState.startS) (hser : sm.serial = none) :
    (∀ u ∈ (sm.runFrames fs).updates,
      u.serialno = none ∧ u.state ≠ State.header) ∨
    (∃ s : List Nat, ∃ rest : List StateUpdate,
      (sm.runFrames fs).updates
          = (⟨State.header, some s, none, 0⟩ : StateUpdate) :: rest ∧
      ∀ u ∈ rest, u.serialno = some s) := by
  induction fs generalizing sm with
  | nil =>
      left
      simp [SM.runFrames]
  | cons d rest ih =>
      rcases process_start_cases sm d hs hser with hc | ⟨s, h1, h2, h3⟩ |
          ⟨f, h1, h2, h3, h4, h5⟩
      · simp only [SM.runFrames, hc, List.nil_append]
        exact ih sm hs hser
      · right
        refine ⟨s, ((sm.process d).sm.runFrames rest).updates, ?_, ?_⟩
        · simp only [SM.runFrames, h3, List.cons_append, List.nil_append]
        · intro u hu
          have hne : (sm.process d).sm.istate ≠ IState.startS := by
            rw [h1]
            intro hcon
            cases hcon
          obtain ⟨hall, -, -⟩ := runFrames_serial (sm.process d).sm rest hne
          rw [hall u hu, h2]
      · left
        intro u hu
        simp only [SM.runFrames, h3, List.cons_append, List.nil_append] at hu
        rw [runFrames_failureS (sm.process d).sm rest f h1] at hu
        simp only [List.mem_cons] at hu
        rcases hu with rfl | hu
        · refine ⟨h4, ?_⟩
          rw [h5]
          intro hcon
          cases hcon
        · cases hu

theorem fullTrace_updates_details (target : Option (List Nat)) (pages : List Page)
    (fs : List (List Nat)) :
    ∀ u ∈ fullTrace target pages fs, ∃ sm' : SM,
      u = sm'.details ∧ StateInv sm' ∧ sm'.pages = pages := by
  intro u hu
  rw [fullTrace, List.mem_cons] at hu
  rcases hu with rfl | hu
  · exact ⟨SM.init target pages, rfl, init_inv target pages, rfl⟩
  · exact runFrames_updates_details (SM.init target pages) fs
      (init_inv target pages) u hu

/-- C7 (amended): the progress attached to every status update of any run
is exactly the value of the `StateMachine.progress` formula at the pushing
machine's confirmed-page counter — 0.0 while no page is confirmed (which
takes precedence over the zero-page case), else 100 * confirmed / total,
else 100.0 for a zero-page image — and in particular, for a zero-page
image the snapshot pushed on entering WaitForDone reports 0.0 while the
final Complete snapshot reports 100.0. -/
theorem C7_progress_attached (target : Option (List Nat)) (pages : List Page)
    (fs : List (List Nat)) :
    (∀ u ∈ fullTrace target pages fs, ∃ sm' : SM,
      u = sm'.details ∧ sm'.pages = pages ∧
      u.progress = progressFormula sm'.confirmedPage pages.length) ∧
    ((fullTrace none [] [helloFrame 0 0 0 1 2 3 4, [0x53]]).getLast?.map
        (fun u => (u.state, u.progress))
      = some (State.waitForDone, 0)) ∧
    ((fullTrace none [] [helloFrame 0 0 0 1 2 3 4, [0x53], [0x44]]).getLast?.map
        (fun u => (u.state, u.progress))
      = some (State.complete, 100)) := by
  refine ⟨?_, by decide, by decide⟩
  intro u hu
  obtain ⟨sm', h1, h2, h3⟩ := fullTrace_updates_details target pages fs u hu
  refine ⟨sm', h1, h3, ?_⟩
  rw [h1, details_progress sm' h2, SM.progress, h3]

theorem C7_witness :
    ∃ sm' : SM,
      (⟨State.start, none, none, 0⟩ : StateUpdate) = sm'.details ∧
      sm'.pages = ([] : List Page) ∧
      (⟨State.start, none, none, 0⟩ : StateUpdate).progress
        = progressFormula sm'.confirmedPage ([] : List Page).length :=
  (C7_progress_attached none [] []).1 ⟨State.start, none, none, 0⟩ (by decide)

/-- C7 counterexample: for a zero-page image, the snapshot pushed on
entering WaitForDone carries progress 0, not 100, because the
no-page-confirmed branch of the progress computation takes precedence
over the zero-page branch. -/
theorem C7_counterexample :
    (fullTrace none [] [helloFrame 0 0 0 1 2 3 4, [0x53]]).getLast?
        = some ⟨State.waitForDone, some [4, 3, 2, 1], none, 0⟩ ∧
      (0 : ℚ) ≠ 100 := by
  constructor
  · decide
  · norm_num

/-- C10: in every pushed status update the failure field is non-None
exactly when the state field is Failure (and a transition to
`FailureState f` pushes exactly `some f`); the serialno field is None in
every update before the Header transition (which is at most the initial
Start update, or every update if Header is never reached) and from the
Header update on it always equals the single adopted serial. -/
theorem C10_update_invariants (target : Option (List Nat)) (pages : List Page)
    (fs : List (List Nat)) :
    (∀ u ∈ fullTrace target pages fs,
      (u.failure ≠ none ↔ u.state = State.failure)) ∧
    (∀ (sm : SM) (f : Failure),
      (SM.details { sm with istate := IState.failureS f }).failure = some f) ∧
    (∃ (k : Nat) (s : List Nat), k ≤ (fullTrace target pages fs).length ∧
      (∀ i (u : StateUpdate), (fullTrace target pages fs)[i]? = some u →
        i < k → u.serialno = none ∧ u.state ≠ State.header) ∧
      (∀ i (u : StateUpdate), (fullTrace target pages fs)[i]? = some u →
        k ≤ i → u.serialno = some s)) := by
  refine ⟨?_, fun sm f => rfl, ?_⟩
  · intro u hu
    obtain ⟨sm', h1, -, -⟩ := fullTrace_updates_details target pages fs u hu
    rw [h1]
    exact details_failure_iff sm'
  · have htr : fullTrace target pages fs
        = (SM.init target pages).details
          :: ((SM.init target pages).runFrames fs).updates := rfl
    rcases runFrames_start_serial (SM.init target pages) fs rfl rfl with
      hall | ⟨s, rest, heq, hrest⟩
    · refine ⟨(fullTrace target pages fs).length, [], le_refl _, ?_, ?_⟩
      · intro i u hu _
        have hm : u ∈ fullTrace target pages fs := List.getElem?_mem hu
        rw [htr, List.mem_cons] at hm
        rcases hm with he | hm
        · rw [he]
          exact ⟨rfl, nofun⟩
        · exact hall _ hm
      · intro i u hu hk
        have hnone : (fullTrace target pages fs)[i]? = none :=
          List.getElem?_eq_none hk
        rw [hu] at hnone
        cases hnone
    · refine ⟨1, s, ?_, ?_, ?_⟩
      · rw [htr]
        simp only [List.length_cons]
        omega
      · intro i u hu hi
        have hi0 : i = 0 := by omega
        subst hi0
        rw [htr, List.getElem?_cons_zero] at hu
        have hu' : (SM.init target pages).details = u := Option.some.inj hu
        rw [← hu']
        exact ⟨rfl, nofun⟩
      · intro i u hu hk
        cases i with
        | zero => omega
        | succ j =>
            rw [htr, List.getElem?_cons_succ] at hu
            have hm : u ∈ ((SM.init target pages).runFrames fs).updates :=
              List.getElem?_mem hu
            rw [heq, List.mem_cons] at hm
            rcases hm with he | hm2
            · rw [he]
            · exact hrest _ hm2

theorem C10_witness :
    ((⟨State.start, none, none, 0⟩ : StateUpdate).failure ≠ none ↔
      (⟨State.start, none, none, 0⟩ : StateUpdate).state = State.failure) ∧
    (∃ (k : Nat) (s : List Nat),
      k ≤ (fullTrace none [] [helloFrame 0 0 0 1 2 3 4, [0x53], [0x44]]).length ∧
      (∀ i (u : StateUpdate),
        (fullTrace none [] [helloFrame 0 0 0 1 2 3 4, [0x53], [0x44]])[i]? = some u →
        i < k → u.serialno = none ∧ u.state ≠ State.header) ∧
      (∀ i (u : StateUpdate),
        (fullTrace none [] [helloFrame 0 0 0 1 2 3 4, [0x53], [0x44]])[i]? = some u →
        k ≤ i → u.serialno = some s)) :=
  ⟨(C10_update_invariants none [] [helloFrame 0 0 0 1 2 3 4, [0x53], [0x44]]).1
      ⟨State.start, none, none, 0⟩ (by decide),
   (C10_update_invariants none [] [helloFrame 0 0 0 1 2 3 4, [0x53], [0x44]]).2.2⟩

theorem runFrames_append (sm : SM) (a b : List (List Nat)) :
    ((sm.runFrames (a ++ b)).sm = ((sm.runFrames a).sm.runFrames b).sm) ∧
    ((sm.runFrames (a ++ b)).updates
      = (sm.runFrames a).updates ++ ((sm.runFrames a).sm.runFrames b).updates) ∧
    ((sm.runFrames (a ++ b)).replies
      = (sm.runFrames a).replies ++ ((sm.runFrames a).sm.runFrames b).replies) := by
  induction a generalizing sm with
  | nil => simp [SM.runFrames]
  | cons d rest ih =>
      obtain ⟨ih1, ih2, ih3⟩ := ih (sm.process d).sm
      have e : (d :: rest) ++ b = d :: (rest ++ b) := rfl
      rw [e]
      refine ⟨?_, ?_, ?_⟩ <;>
        simp only [SM.runFrames, ih1, ih2, ih3, List.append_assoc]

theorem run_upload_tail :
    ∀ (j : Nat) (sm : SM) (p : Page), 1 ≤ j → j ≤ 127 →
      sm.istate = IState.uploadS p (8 * (128 - j)) →
      ((sm.runFrames (List.replicate j [0x50])).sm
          = { sm with istate := IState.checkCrcS p.crc }) ∧
      ((sm.runFrames (List.replicate j [0x50])).updates
          = [SM.details { sm with istate := IState.checkCrcS p.crc }]) := by
  intro j
  induction j with
  | zero => omega
  | succ j ih =>
      intro sm p h1 h127 hs
      by_cases hj : j = 0
      · subst hj
        have hpos : 8 * (128 - 1) = 1016 := by norm_num
        rw [hpos] at hs
        have hstep : sm.process [0x50]
            = ⟨{ sm with istate := IState.checkCrcS p.crc },
                [(p.data.drop 1016).take 8],
                [SM.details { sm with istate := IState.checkCrcS p.crc }]⟩ := by
          simp only [SM.process, hs]
          rw [if_pos ⟨rfl, rfl⟩, if_neg (show ¬((1016 : Nat) = 0) by norm_num),
            if_pos trivial]
        rw [show List.replicate 1 ([0x50] : List Nat) = [[0x50]] from rfl]
        simp only [SM.runFrames, hstep]
        exact ⟨trivial, by simp⟩
      · have hstep : sm.process [0x50]
            = ⟨{ sm with istate := IState.uploadS p (8 * (128 - j)) },
                [(p.data.drop (8 * (128 - (j + 1)))).take 8], []⟩ := by
          simp only [SM.process, hs]
          rw [if_pos ⟨rfl, rfl⟩,
            if_neg (show ¬(8 * (128 - (j + 1)) = 0) by omega),
            if_neg (show ¬(8 * (128 - (j + 1)) + 8 = 1024) by omega)]
          have e : 8 * (128 - (j + 1)) + 8 = 8 * (128 - j) := by omega
          rw [e]
        rw [List.replicate_succ]
        simp only [SM.runFrames, hstep, List.nil_append]
        obtain ⟨ih1, ih2⟩ := ih { sm with istate := IState.uploadS p (8 * (128 - j)) }
          p (by omega) (by omega) rfl
        rw [ih1, ih2]
        exact ⟨rfl, rfl⟩


theorem runFrames_cons_sm (sm : SM) (d : List Nat) (rest : List (List Nat)) :
    (sm.runFrames (d :: rest)).sm = ((sm.process d).sm.runFrames rest).sm := rfl

theorem runFrames_cons_updates (sm : SM) (d : List Nat) (rest : List (List Nat)) :
    (sm.runFrames (d :: rest)).updates
      = (sm.process d).updates ++ ((sm.process d).sm.runFrames rest).updates := rfl

theorem runFrames_cons_replies (sm : SM) (d : List Nat) (rest : List (List Nat)) :
    (sm.runFrames (d :: rest)).replies
      = (sm.process d).replies ++ ((sm.process d).sm.runFrames rest).replies := rfl

set_option maxRecDepth 4000 in
theorem run_pages_128 (sm : SM) (p : Page) (hs : sm.istate = IState.uploadS p 0) :
    ((sm.runFrames (List.replicate 128 [0x50])).sm
        = { sm with
            confirmedPage := sm.confirmedPage + 1,
            istate := IState.checkCrcS p.crc }) ∧
    ((sm.runFrames (List.replicate 128 [0x50])).updates
        = [SM.details { sm with
            confirmedPage := sm.confirmedPage + 1,
            istate := IState.checkCrcS p.crc }]) := by
  have hstep : sm.process [0x50]
      = ⟨{ sm with
            confirmedPage := sm.confirmedPage + 1,
            istate := IState.uploadS p 8 }, [(p.data.drop 0).take 8], []⟩ := by
    simp [SM.process, hs]
  have hsm := congrArg StepOut.sm hstep
  have hupd := congrArg StepOut.updates hstep
  obtain ⟨h1, h2⟩ := run_upload_tail 127
    { sm with confirmedPage := sm.confirmedPage + 1, istate := IState.uploadS p 8 }
    p (by norm_num) (by norm_num)
    (show IState.uploadS p 8 = IState.uploadS p (8 * (128 - 127)) by norm_num)
  rw [show List.replicate 128 ([0x50] : List Nat)
      = [0x50] :: List.replicate 127 [0x50] from rfl]
  constructor
  · rw [runFrames_cons_sm, hsm, h1]
  · rw [runFrames_cons_updates, hupd, hsm, h2, List.nil_append]

set_option maxRecDepth 4000 in
theorem run_pageBlock_cont (sm : SM) (p q : Page)
    (hs : sm.istate = IState.uploadS p 0)
    (hq : sm.pages[sm.currentPage + 1]? = some q) :
    ((sm.runFrames pageBlock).sm
        = { sm with
            confirmedPage := sm.confirmedPage + 1,
            currentPage := sm.currentPage + 1,
            istate := IState.uploadS q 0 }) ∧
    ((sm.runFrames pageBlock).updates
        = [SM.details { sm with
              confirmedPage := sm.confirmedPage + 1,
              istate := IState.checkCrcS p.crc },
           SM.details { sm with
              confirmedPage := sm.confirmedPage + 1,
              currentPage := sm.currentPage + 1,
              istate := IState.uploadS q 0 }]) := by
  obtain ⟨h1, h2⟩ := run_pages_128 sm p hs
  have hcrc : ({ sm with
        confirmedPage := sm.confirmedPage + 1,
        istate := IState.checkCrcS p.crc } : SM).process [0x43]
      = ⟨{ sm with
            confirmedPage := sm.confirmedPage + 1,
            currentPage := sm.currentPage + 1,
            istate := IState.uploadS q 0 },
          [crcBytesLE p.crc],
          [SM.details { sm with
              confirmedPage := sm.confirmedPage + 1,
              currentPage := sm.currentPage + 1,
              istate := IState.uploadS q 0 }]⟩ := by
    simp [SM.process, hq]
  obtain ⟨ha1, ha2, -⟩ := runFrames_append sm (List.replicate 128 [0x50]) [[0x43]]
  constructor
  · rw [pageBlock, ha1, h1, runFrames_cons_sm, congrArg StepOut.sm hcrc]
    rfl
  · rw [pageBlock, ha2, h1, h2, runFrames_cons_updates,
      congrArg StepOut.updates hcrc, congrArg StepOut.sm hcrc]
    rfl

set_option maxRecDepth 4000 in
theorem run_pageBlock_last (sm : SM) (p : Page)
    (hs : sm.istate = IState.uploadS p 0)
    (hq : sm.pages[sm.currentPage + 1]? = none) :
    ((sm.runFrames pageBlock).sm
        = { sm with
            confirmedPage := sm.confirmedPage + 1,
            currentPage := sm.currentPage + 1,
            istate := IState.waitForDoneS }) ∧
    ((sm.runFrames pageBlock).updates
        = [SM.details { sm with
              confirmedPage := sm.confirmedPage + 1,
              istate := IState.checkCrcS p.crc },
           SM.details { sm with
              confirmedPage := sm.confirmedPage + 1,
              currentPage := sm.currentPage + 1,
              istate := IState.waitForDoneS }]) := by
  obtain ⟨h1, h2⟩ := run_pages_128 sm p hs
  have hcrc : ({ sm with
        confirmedPage := sm.confirmedPage + 1,
        istate := IState.checkCrcS p.crc } : SM).process [0x43]
      = ⟨{ sm with
            confirmedPage := sm.confirmedPage + 1,
            currentPage := sm.currentPage + 1,
            istate := IState.waitForDoneS },
          [crcBytesLE p.crc],
          [SM.details { sm with
              confirmedPage := sm.confirmedPage + 1,
              currentPage := sm.currentPage + 1,
              istate := IState.waitForDoneS }]⟩ := by
    simp [SM.process, hq]
  obtain ⟨ha1, ha2, -⟩ := runFrames_append sm (List.replicate 128 [0x50]) [[0x43]]
  constructor
  · rw [pageBlock, ha1, h1, runFrames_cons_sm, congrArg StepOut.sm hcrc]
    rfl
  · rw [pageBlock, ha2, h1, h2, runFrames_cons_updates,
      congrArg StepOut.updates hcrc, congrArg StepOut.sm hcrc]
    rfl

theorem run_blocks :
    ∀ (m : Nat) (sm : SM) (p : Page),
      sm.istate = IState.uploadS p 0 →
      sm.pages[sm.currentPage]? = some p →
      sm.currentPage + m = sm.pages.length →
      (((sm.runFrames ((List.replicate m pageBlock).flatten)).sm
          = { sm with
              confirmedPage := sm.confirmedPage + (m : Int),
              currentPage := sm.pages.length,
              istate := IState.waitForDoneS }) ∧
      (((sm.runFrames ((List.replicate m pageBlock).flatten)).updates.map
          (fun u => u.state))
        = (List.replicate (m - 1) [State.checkCrc, State.upload]).flatten
            ++ [State.checkCrc, State.waitForDone])) := by
  intro m
  induction m with
  | zero =>
      intro sm p hs hp hlen
      rcases List.getElem?_eq_some.mp hp with ⟨hlt, -⟩
      omega
  | succ m' ih =>
      intro sm p hs hp hlen
      cases m' with
      | zero =>
          have hq : sm.pages[sm.currentPage + 1]? = none :=
            List.getElem?_eq_none (by omega)
          obtain ⟨hb1, hb2⟩ := run_pageBlock_last sm p hs hq
          have hfl : (List.replicate 1 pageBlock).flatten = pageBlock := by simp
          rw [hfl]
          constructor
          · rw [hb1]
            have hc : sm.currentPage + 1 = sm.pages.length := by omega
            rw [hc]
            norm_num
          · rw [hb2]
            simp [SM.details]
      | succ m'' =>
          have hlt : sm.currentPage + 1 < sm.pages.length := by omega
          have hq : sm.pages[sm.currentPage + 1]?
              = some sm.pages[sm.currentPage + 1] :=
            List.getElem?_eq_getElem hlt
          obtain ⟨hb1, hb2⟩ := run_pageBlock_cont sm p
            (sm.pages[sm.currentPage + 1]) hs hq
          have hfl : (List.replicate (m'' + 1 + 1) pageBlock).flatten
              = pageBlock ++ (List.replicate (m'' + 1) pageBlock).flatten := by
            rw [List.replicate_succ, List.flatten_cons]
          rw [hfl]
          obtain ⟨ha1, ha2, -⟩ := runFrames_append sm pageBlock
            ((List.replicate (m'' + 1) pageBlock).flatten)
          obtain ⟨ih1, ih2⟩ := ih ((sm.runFrames pageBlock).sm)
            (sm.pages[sm.currentPage + 1])
            (by rw [hb1])
            (by rw [hb1]; exact hq)
            (by rw [hb1]; simpa using by omega)
          constructor
          · rw [ha1, ih1, hb1]
            simp only [SM.mk.injEq, true_and, and_true]
            push_cast
            ring
          · rw [ha2, List.map_append, ih2, hb2]
            simp only [List.map_cons, List.map_nil, SM.details]
            rw [show (m'' + 1 + 1 - 1) = m'' + 1 from rfl,
              show (m'' + 1 - 1) = m'' from rfl,
              List.replicate_succ, List.flatten_cons]
            simp [List.append_assoc]

theorem flatten_replicate_pair {α : Type} (x y : α) (n : Nat) :
    (List.replicate (n + 1) [x, y]).flatten
      = x :: y :: (List.replicate n [x, y]).flatten := by
  rw [List.replicate_succ, List.flatten_cons]
  rfl

theorem states_shift (n : Nat) :
    State.upload :: (((List.replicate n [State.checkCrc, State.upload]).flatten
        ++ [State.checkCrc, State.waitForDone]) ++ [State.complete])
      = (List.replicate (n + 1) [State.upload, State.checkCrc]).flatten
          ++ [State.waitForDone, State.complete] := by
  induction n with
  | zero => rfl
  | succ n ih =>
      rw [flatten_replicate_pair, flatten_replicate_pair]
      show State.upload :: State.checkCrc ::
          (State.upload ::
            (((List.replicate n [State.checkCrc, State.upload]).flatten
              ++ [State.checkCrc, State.waitForDone]) ++ [State.complete]))
        = State.upload :: State.checkCrc ::
          ((List.replicate (n + 1) [State.upload, State.checkCrc]).flatten
            ++ [State.waitForDone, State.complete])
      rw [ih]

set_option maxRecDepth 4000 in
theorem hello_step (pages : List Page) (b1 b2 b3 s0 s1 s2 s3 : Nat) :
    (SM.init (some [s3, s2, s1, s0]) pages).process
        (helloFrame b1 b2 b3 s0 s1 s2 s3)
      = ⟨{ SM.init (some [s3, s2, s1, s0]) pages with
            serial := some [s3, s2, s1, s0],
            istate := IState.headerS },
          [[s0, s1, s2, s3]],
          [SM.details { SM.init (some [s3, s2, s1, s0]) pages with
            serial := some [s3, s2, s1, s0],
            istate := IState.headerS }]⟩ := by
  simp [SM.process, SM.init, helloFrame]

set_option maxRecDepth 4000 in
theorem header_step_cons (sm : SM) (p : Page) (rest : List Page)
    (hs : sm.istate = IState.headerS) (hp : sm.pages = p :: rest)
    (hc : sm.currentPage = 0) :
    sm.process [0x53]
      = ⟨{ sm with istate := IState.uploadS p 0 }, [[sm.pages.length]],
          [SM.details { sm with istate := IState.uploadS p 0 }]⟩ := by
  simp [SM.process, hs, hp, hc]

set_option maxRecDepth 4000 in
theorem header_step_nil (sm : SM)
    (hs : sm.istate = IState.headerS) (hp : sm.pages = []) :
    sm.process [0x53]
      = ⟨{ sm with istate := IState.waitForDoneS }, [[sm.pages.length]],
          [SM.details { sm with istate := IState.waitForDoneS }]⟩ := by
  simp [SM.process, hs, hp]

set_option maxRecDepth 4000 in
theorem done_step (sm : SM) (hs : sm.istate = IState.waitForDoneS) :
    sm.process [0x44]
      = ⟨{ sm with
            confirmedPage := sm.confirmedPage + 1,
            istate := IState.completeS }, [],
          [SM.details { sm with
            confirmedPage := sm.confirmedPage + 1,
            istate := IState.completeS }]⟩ := by
  simp [SM.process, hs]

set_option maxRecDepth 8000 in
theorem C2_nil_updates (b1 b2 b3 s0 s1 s2 s3 : Nat) :
    ((SM.init (some [s3, s2, s1, s0]) []).runFrames
        [helloFrame b1 b2 b3 s0 s1 s2 s3, [0x53], [0x44]]).updates
      = [SM.details { SM.init (some [s3, s2, s1, s0]) [] with
            serial := some [s3, s2, s1, s0],
            istate := IState.headerS },
         SM.details { SM.init (some [s3, s2, s1, s0]) [] with
            serial := some [s3, s2, s1, s0],
            istate := IState.waitForDoneS },
         SM.details { SM.init (some [s3, s2, s1, s0]) [] with
            serial := some [s3, s2, s1, s0],
            confirmedPage := -1 + 1,
            istate := IState.completeS }] ∧
    ((SM.init (some [s3, s2, s1, s0]) []).runFrames
        [helloFrame b1 b2 b3 s0 s1 s2 s3, [0x53], [0x44]]).replies
      = [[s0, s1, s2, s3], [0]] := by
  have hh := hello_step [] b1 b2 b3 s0 s1 s2 s3
  have h53 := header_step_nil
    { SM.init (some [s3, s2, s1, s0]) [] with
        serial := some [s3, s2, s1, s0], istate := IState.headerS } rfl rfl
  have h44 := done_step
    { SM.init (some [s3, s2, s1, s0]) [] with
        serial := some [s3, s2, s1, s0], istate := IState.waitForDoneS } rfl
  constructor
  · rw [runFrames_cons_updates, congrArg StepOut.updates hh, congrArg StepOut.sm hh,
      runFrames_cons_updates, congrArg StepOut.updates h53, congrArg StepOut.sm h53,
      runFrames_cons_updates, congrArg StepOut.updates h44, congrArg StepOut.sm h44]
    rfl
  · rw [runFrames_cons_replies, congrArg StepOut.replies hh, congrArg StepOut.sm hh,
      runFrames_cons_replies, congrArg StepOut.replies h53, congrArg StepOut.sm h53,
      runFrames_cons_replies, congrArg StepOut.replies h44, congrArg StepOut.sm h44]
    rfl

set_option maxRecDepth 8000 in
theorem C2_cons_char (p : Page) (rest : List Page) (b1 b2 b3 s0 s1 s2 s3 : Nat) :
    ∃ B : List StateUpdate,
      (((SM.init (some [s3, s2, s1, s0]) (p :: rest)).runFrames
          (cleanFrames (helloFrame b1 b2 b3 s0 s1 s2 s3) (p :: rest).length)).updates
        = SM.details { SM.init (some [s3, s2, s1, s0]) (p :: rest) with
              serial := some [s3, s2, s1, s0],
              istate := IState.headerS }
          :: SM.details { SM.init (some [s3, s2, s1, s0]) (p :: rest) with
              serial := some [s3, s2, s1, s0],
              istate := IState.uploadS p 0 }
          :: (B ++ [SM.details { SM.init (some [s3, s2, s1, s0]) (p :: rest) with
              serial := some [s3, s2, s1, s0],
              currentPage := (p :: rest).length,
              confirmedPage := -1 + ((p :: rest).length : Int) + 1,
              istate := IState.completeS }])) ∧
      (B.map (fun u => u.state)
        = (List.replicate ((p :: rest).length - 1)
            [State.checkCrc, State.upload]).flatten
          ++ [State.checkCrc, State.waitForDone]) ∧
      (((SM.init (some [s3, s2, s1, s0]) (p :: rest)).runFrames
          (cleanFrames (helloFrame b1 b2 b3 s0 s1 s2 s3) (p :: rest).length)).replies[1]?
        = some [(p :: rest).length]) := by
  have hh := hello_step (p :: rest) b1 b2 b3 s0 s1 s2 s3
  have h53 := header_step_cons
    { SM.init (some [s3, s2, s1, s0]) (p :: rest) with
        serial := some [s3, s2, s1, s0], istate := IState.headerS } p rest rfl rfl rfl
  obtain ⟨hb1, hb2⟩ := run_blocks (p :: rest).length
    { SM.init (some [s3, s2, s1, s0]) (p :: rest) with
        serial := some [s3, s2, s1, s0], istate := IState.uploadS p 0 } p
    rfl (by simp [SM.init]) (by simp [SM.init])
  have h44 := done_step
    (({ SM.init (some [s3, s2, s1, s0]) (p :: rest) with
        serial := some [s3, s2, s1, s0],
        istate := IState.uploadS p 0 } : SM).runFrames
      ((List.replicate (p :: rest).length pageBlock).flatten)).sm
    (by rw [hb1])
  obtain ⟨ha1, ha2, ha3⟩ := runFrames_append
    { SM.init (some [s3, s2, s1, s0]) (p :: rest) with
        serial := some [s3, s2, s1, s0], istate := IState.uploadS p 0 }
    ((List.replicate (p :: rest).length pageBlock).flatten) [[0x44]]
  refine ⟨(({ SM.init (some [s3, s2, s1, s0]) (p :: rest) with
      serial := some [s3, s2, s1, s0],
      istate := IState.uploadS p 0 } : SM).runFrames
    ((List.replicate (p :: rest).length pageBlock).flatten)).updates, ?_, hb2, ?_⟩
  · rw [show cleanFrames (helloFrame b1 b2 b3 s0 s1 s2 s3) (p :: rest).length
        = helloFrame b1 b2 b3 s0 s1 s2 s3 :: [0x53]
          :: ((List.replicate (p :: rest).length pageBlock).flatten ++ [[0x44]])
        from rfl]
    rw [runFrames_cons_updates, congrArg StepOut.updates hh, congrArg StepOut.sm hh,
      runFrames_cons_updates, congrArg StepOut.updates h53, congrArg StepOut.sm h53,
      ha2, runFrames_cons_updates, congrArg StepOut.updates h44,
      congrArg StepOut.sm h44, hb1]
    rfl
  · rw [show cleanFrames (helloFrame b1 b2 b3 s0 s1 s2 s3) (p :: rest).length
        = helloFrame b1 b2 b3 s0 s1 s2 s3 :: [0x53]
          :: ((List.replicate (p :: rest).length pageBlock).flatten ++ [[0x44]])
        from rfl]
    rw [runFrames_cons_replies, congrArg StepOut.replies hh, congrArg StepOut.sm hh,
      runFrames_cons_replies, congrArg StepOut.replies h53, congrArg StepOut.sm h53]
    rfl

/-- C2: for every firmware image within the wire-protocol page limit and a
clean run (matching HELLO, START, 128 PAGE requests and one CRC request
per page, then DONE), the visited states are exactly Start, Header,
(Upload, CheckCrc) repeated N times, WaitForDone, Complete; the progress
values of the successive status updates are monotonically non-decreasing
and the final Complete update carries progress 100; and the Header reply
(the second reply of the run) is the single byte N — in particular 0 for
a zero-page image, which never enters Upload. -/
theorem C2_clean_run (pages : List Page) (hle : pages.length ≤ 255)
    (b1 b2 b3 s0 s1 s2 s3 : Nat) :
    (((fullTrace (some [s3, s2, s1, s0]) pages
        (cleanFrames (helloFrame b1 b2 b3 s0 s1 s2 s3) pages.length)).map
          (fun u => u.state))
      = cleanStates pages.length) ∧
    List.Chain' (· ≤ ·)
      ((fullTrace (some [s3, s2, s1, s0]) pages
        (cleanFrames (helloFrame b1 b2 b3 s0 s1 s2 s3) pages.length)).map
          (fun u => u.progress)) ∧
    ((((fullTrace (some [s3, s2, s1, s0]) pages
        (cleanFrames (helloFrame b1 b2 b3 s0 s1 s2 s3) pages.length)).map
          (fun u => u.progress)).getLast?) = some 100) ∧
    (((fullReplies (some [s3, s2, s1, s0]) pages
        (cleanFrames (helloFrame b1 b2 b3 s0 s1 s2 s3) pages.length)))[1]?
      = some [pages.length]) := by
  rcases pages with _ | ⟨p, rest⟩
  · obtain ⟨hu, hr⟩ := C2_nil_updates b1 b2 b3 s0 s1 s2 s3
    have hfr : cleanFrames (helloFrame b1 b2 b3 s0 s1 s2 s3) ([] : List Page).length
        = [helloFrame b1 b2 b3 s0 s1 s2 s3, [0x53], [0x44]] := rfl
    refine ⟨?_, fullTrace_progress_chain _ _ _, ?_, ?_⟩
    · rw [hfr]
      rw [show fullTrace (some [s3, s2, s1, s0]) []
            [helloFrame b1 b2 b3 s0 s1 s2 s3, [0x53], [0x44]]
          = (SM.init (some [s3, s2, s1, s0]) []).details
            :: ((SM.init (some [s3, s2, s1, s0]) []).runFrames
              [helloFrame b1 b2 b3 s0 s1 s2 s3, [0x53], [0x44]]).updates from rfl, hu]
      rfl
    · rw [hfr]
      rw [show fullTrace (some [s3, s2, s1, s0]) []
            [helloFrame b1 b2 b3 s0 s1 s2 s3, [0x53], [0x44]]
          = (SM.init (some [s3, s2, s1, s0]) []).details
            :: ((SM.init (some [s3, s2, s1, s0]) []).runFrames
              [helloFrame b1 b2 b3 s0 s1 s2 s3, [0x53], [0x44]]).updates from rfl, hu]
      rfl
    · rw [hfr]
      rw [show fullReplies (some [s3, s2, s1, s0]) []
            [helloFrame b1 b2 b3 s0 s1 s2 s3, [0x53], [0x44]]
          = ((SM.init (some [s3, s2, s1, s0]) []).runFrames
              [helloFrame b1 b2 b3 s0 s1 s2 s3, [0x53], [0x44]]).replies from rfl, hr]
      rfl
  · obtain ⟨B, hu, hmapB, hrep⟩ := C2_cons_char p rest b1 b2 b3 s0 s1 s2 s3
    refine ⟨?_, fullTrace_progress_chain _ _ _, ?_, ?_⟩
    · rw [show fullTrace (some [s3, s2, s1, s0]) (p :: rest)
            (cleanFrames (helloFrame b1 b2 b3 s0 s1 s2 s3) (p :: rest).length)
          = (SM.init (some [s3, s2, s1, s0]) (p :: rest)).details
            :: ((SM.init (some [s3, s2, s1, s0]) (p :: rest)).runFrames
              (cleanFrames (helloFrame b1 b2 b3 s0 s1 s2 s3)
                (p :: rest).length)).updates from rfl, hu]
      simp only [List.map_cons, List.map_append, List.map_nil]
      rw [hmapB]
      rw [show (p :: rest).length - 1 = rest.length from rfl]
      show State.start :: State.header :: (State.upload ::
          (((List.replicate rest.length [State.checkCrc, State.upload]).flatten
            ++ [State.checkCrc, State.waitForDone]) ++ [State.complete]))
        = cleanStates (p :: rest).length
      rw [states_shift rest.length]
      rfl
    · rw [show fullTrace (some [s3, s2, s1, s0]) (p :: rest)
            (cleanFrames (helloFrame b1 b2 b3 s0 s1 s2 s3) (p :: rest).length)
          = (SM.init (some [s3, s2, s1, s0]) (p :: rest)).details
            :: ((SM.init (some [s3, s2, s1, s0]) (p :: rest)).runFrames
              (cleanFrames (helloFrame b1 b2 b3 s0 s1 s2 s3)
                (p :: rest).length)).updates from rfl, hu]
      show ((((SM.init (some [s3, s2, s1, s0]) (p :: rest)).details
          :: SM.details { SM.init (some [s3, s2, s1, s0]) (p :: rest) with
              serial := some [s3, s2, s1, s0],
              istate := IState.headerS }
          :: SM.details { SM.init (some [s3, s2, s1, s0]) (p :: rest) with
              serial := some [s3, s2, s1, s0],
              istate := IState.uploadS p 0 }
          :: B)
          ++ [SM.details { SM.init (some [s3, s2, s1, s0]) (p :: rest) with
              serial := some [s3, s2, s1, s0],
              currentPage := (p :: rest).length,
              confirmedPage := -1 + ((p :: rest).length : Int) + 1,
              istate := IState.completeS }]).map (fun u => u.progress)).getLast?
        = some 100
      rw [List.map_append]
      simp only [List.map_cons, List.map_nil]
      rw [List.getLast?_concat]
      show some (progressFormula (-1 + ((p :: rest).length : Int) + 1)
        (p :: rest).length) = some 100
      rw [show (-1 + ((p :: rest).length : Int) + 1)
          = ((p :: rest).length : Int) from by ring]
      have hpos : 0 < (p :: rest).length := by simp
      have hne : ((p :: rest).length : ℚ) ≠ 0 := by
        simp only [List.length_cons]
        positivity
      rw [progressFormula, if_neg (by omega), if_pos hpos]
      push_cast
      rw [mul_comm, mul_div_assoc, div_self hne, mul_one]
    · rw [show fullReplies (some [s3, s2, s1, s0]) (p :: rest)
            (cleanFrames (helloFrame b1 b2 b3 s0 s1 s2 s3) (p :: rest).length)
          = ((SM.init (some [s3, s2, s1, s0]) (p :: rest)).runFrames
              (cleanFrames (helloFrame b1 b2 b3 s0 s1 s2 s3)
                (p :: rest).length)).replies from rfl]
      exact hrep

theorem C2_witness :
    ([Page.ofData [9]] : List Page).length ≤ 255 ∧
    ((fullTrace (some [4, 3, 2, 1]) [Page.ofData [9]]
        (cleanFrames (helloFrame 5 6 7 1 2 3 4) [Page.ofData [9]].length)).map
          (fun u => u.state))
      = cleanStates [Page.ofData [9]].length :=
  ⟨by decide, (C2_clean_run [Page.ofData [9]] (by decide) 5 6 7 1 2 3 4).1⟩

/-- C8: `run` pops updates one at a time with a per-pop timeout — it
returns true exactly when, within the prefix of updates each arriving
within the timeout, a terminal (Complete or Failure) update occurs (so a
run may span many updates and take arbitrarily long in total); each pop
assigns the update's fields to the externally visible view, a pop whose
gap exceeds the timeout returns false, and the first update a consumer
can ever observe is the Start-entry update pushed at construction. -/
theorem C8_run_semantics :
    (∀ (t : ℚ) (items : List (ℚ × StateUpdate)) (v : UpgraderView),
      (CanUpgrader.run t items v).1
        = (items.takeWhile (fun pr => decide (pr.1 ≤ t))).any
            (fun pr => isTerminal pr.2)) ∧
    (∀ (t gap : ℚ) (u : StateUpdate) (rest : List (ℚ × StateUpdate))
        (v : UpgraderView),
      (gap ≤ t → isTerminal u = true →
        CanUpgrader.run t ((gap, u) :: rest) v = (true, applyUpdate v u)) ∧
      (gap ≤ t → isTerminal u = false →
        CanUpgrader.run t ((gap, u) :: rest) v
          = CanUpgrader.run t rest (applyUpdate v u)) ∧
      (¬(gap ≤ t) →
        CanUpgrader.run t ((gap, u) :: rest) v = (false, v))) ∧
    (∀ (target : Option (List Nat)) (pages : List Page) (fs : List (List Nat)),
      (fullTrace target pages fs).head?
        = some ⟨State.start, none, none, 0⟩) := by
  refine ⟨?_, ?_, fun target pages fs => rfl⟩
  · intro t items v
    induction items generalizing v with
    | nil => rfl
    | cons pr rest ih =>
        obtain ⟨gap, u⟩ := pr
        by_cases hg : gap ≤ t
        · cases hterm : isTerminal u with
          | true => simp [CanUpgrader.run, hg, hterm, List.takeWhile_cons]
          | false => simp [CanUpgrader.run, hg, hterm, List.takeWhile_cons, ih]
        · simp [CanUpgrader.run, hg, List.takeWhile_cons]
  · intro t gap u rest v
    refine ⟨?_, ?_, ?_⟩
    · intro hg hterm
      simp [CanUpgrader.run, hg, hterm]
    · intro hg hterm
      simp [CanUpgrader.run, hg, hterm]
    · intro hg
      simp [CanUpgrader.run, hg]

theorem C8_witness :
    (CanUpgrader.run 1
        [(1, ⟨State.header, none, none, 0⟩), (1, ⟨State.upload, none, none, 0⟩),
          (1, ⟨State.complete, none, none, 100⟩)]
        ⟨State.start, none, none, 0⟩).1 = true ∧
    (1 : ℚ) + 1 + 1 > 1 ∧
    (fullTrace none [] []).head? = some ⟨State.start, none, none, 0⟩ := by
  refine ⟨?_, by norm_num, (C8_run_semantics.2.2 none [] [])⟩
  rw [C8_run_semantics.1 1
    [(1, ⟨State.header, none, none, 0⟩), (1, ⟨State.upload, none, none, 0⟩),
      (1, ⟨State.complete, none, none, 100⟩)] ⟨State.start, none, none, 0⟩]
  decide
